import Mathlib

/-!
Pineapple game: the simulation loop of `src/public/game.js` and the score API
of `src/controllers/scores.controller.js` and `src/models/scores.model.js`.

A shallow embedding of the browser game's state and of the functions that
change it (`reset`, `syncHud`, `update`, `loop`, `gameOver` and the event
handlers) and of the two API handlers that validate their input
(`createScore`, `listTopScores`), followed by theorems about them.

Modelling conventions.

* JavaScript numbers are elements of an arbitrary linearly ordered field `K`
  (exact arithmetic: rounding, `NaN` and infinities are outside the model).
  Every definition is computable and can be run at `K = ℚ`.
* `Math.hypot` is a parameter `hypot : K → K → K` of the functions that use it.
* `Math.random()` is an oracle: the values it returns at the call sites of one
  `update` call are the fields of a `Draws` record.
* The global `state` object is the record `State`, the four HUD facts the code
  writes are the record `Ui`, and `World` adds the module variable `dragging`
  and the number of `requestAnimationFrame(loop)` calls made so far.
* `draw` only paints the canvas and changes nothing in `World`; it is omitted.
-/

namespace Pineapple

/-- The `x`, `y`, `r` view of an entity, which is all `circleHit` reads. -/
structure Circle (K : Type) where
  x : K
  y : K
  r : K
deriving DecidableEq, Repr

/-- The object `state.player`. -/
structure Player (K : Type) where
  x : K
  y : K
  r : K
  vx : K
  vy : K
  speed : K
deriving DecidableEq, Repr

/-- An element of `state.coins`. -/
structure Coin (K : Type) where
  x : K
  y : K
  r : K
deriving DecidableEq, Repr

/-- The `type` field of a hazard: the string "rocket" or "bomb". -/
inductive HazardType where
  | rocket
  | bomb
deriving DecidableEq, Repr

/-- An element of `state.hazards`. -/
structure Hazard (K : Type) where
  type : HazardType
  x : K
  y : K
  r : K
  vx : K
deriving DecidableEq, Repr

/-- The object `state.spawn`. -/
structure Spawn (K : Type) where
  coinIn : K
  hazardIn : K
deriving DecidableEq, Repr

/-- The global object `state`. `keys` is the `Set` of held keys, kept as a
duplicate-free list. -/
structure State (K : Type) where
  running : Bool
  score : Int
  lives : Int
  best : Option Int
  tPrev : K
  keys : List String
  player : Player K
  coins : List (Coin K)
  hazards : List (Hazard K)
  spawn : Spawn K
deriving DecidableEq, Repr

/-- What the code writes into the page: the three HUD texts and the
`disabled` flag of the submit button. -/
structure Ui where
  score : String
  lives : String
  best : String
  submitDisabled : Bool
deriving DecidableEq, Repr

/-- The values `Math.random()` returns at the call sites reached by one
`update` call: `spawnCoin` (x, y), the coin timer, `spawnHazard` (type, y) and
the hazard timer. -/
structure Draws (K : Type) where
  coinX : K
  coinY : K
  coinT : K
  hazType : K
  hazY : K
  hazT : K
deriving DecidableEq, Repr

/-- The whole mutable state of the module. -/
structure World (K : Type) where
  state : State K
  ui : Ui
  dragging : Bool
  rafRequests : Nat
deriving DecidableEq, Repr

/-- The result of `canvas.getBoundingClientRect()` as far as it is read. -/
structure Rect (K : Type) where
  left : K
  top : K
  width : K
  height : K
deriving DecidableEq, Repr

section Defs

variable {K : Type} [LinearOrderedField K]

def Player.circle (p : Player K) : Circle K := ⟨p.x, p.y, p.r⟩

def Coin.circle (c : Coin K) : Circle K := ⟨c.x, c.y, c.r⟩

def Hazard.circle (h : Hazard K) : Circle K := ⟨h.x, h.y, h.r⟩

/-- The text `String(n)` of an integer. -/
def jsString (n : Int) : String := toString n

/-- Function `syncHud`. -/
def syncHud (w : World K) : World K :=
  { w with ui :=
      { w.ui with
        score := jsString w.state.score
        lives := jsString w.state.lives
        best := match w.state.best with
          | none => "—"
          | some b => jsString b } }

/-- Function `reset`. -/
def reset (w : World K) : World K :=
  let s : State K :=
    { w.state with
      score := 0
      lives := 3
      player := { w.state.player with x := 120, y := 270, vx := 0, vy := 0 }
      coins := []
      hazards := []
      spawn := { coinIn := 0.4, hazardIn := 1.2 } }
  syncHud { w with state := s, ui := { w.ui with submitDisabled := true } }

/-- Function `clamp`: `Math.max(a, Math.min(b, v))`. -/
def clamp (v a b : K) : K := max a (min b v)

/-- Function `rand`, with `u` the value `Math.random()` returned. -/
def rand (a b u : K) : K := a + u * (b - a)

/-- Function `circleHit`. -/
def circleHit (a b : Circle K) : Bool :=
  let dx := a.x - b.x
  let dy := a.y - b.y
  let r := a.r + b.r
  decide (dx * dx + dy * dy ≤ r * r)

/-- The object literal that `spawnCoin` pushes. -/
def newCoin (d : Draws K) : Coin K :=
  { x := rand 220 920 d.coinX, y := rand 60 480 d.coinY, r := 12 }

/-- Function `spawnCoin`. -/
def spawnCoin (d : Draws K) (s : State K) : State K :=
  { s with coins := s.coins ++ [newCoin d] }

/-- The object literal that `spawnHazard` pushes. -/
def newHazard (d : Draws K) : Hazard K :=
  let type := if d.hazType < 0.5 then HazardType.rocket else HazardType.bomb
  { type := type
    x := 980
    y := rand 70 470 d.hazY
    r := if type = HazardType.rocket then 14 else 18
    vx := if type = HazardType.rocket then -520 else -320 }

/-- Function `spawnHazard`. -/
def spawnHazard (d : Draws K) (s : State K) : State K :=
  { s with hazards := s.hazards ++ [newHazard d] }

/-- Function `gameOver`. -/
def gameOver (w : World K) : World K :=
  { w with state := { w.state with running := false }
           ui := { w.ui with submitDisabled := false } }

/-- The test `state.keys.has("ArrowLeft") || state.keys.has("a")`. -/
def leftHeld (keys : List String) : Bool := keys.contains "ArrowLeft" || keys.contains "a"

/-- The test `state.keys.has("ArrowRight") || state.keys.has("d")`. -/
def rightHeld (keys : List String) : Bool := keys.contains "ArrowRight" || keys.contains "d"

/-- The test `state.keys.has("ArrowUp") || state.keys.has("w")`. -/
def upHeld (keys : List String) : Bool := keys.contains "ArrowUp" || keys.contains "w"

/-- The test `state.keys.has("ArrowDown") || state.keys.has("s")`. -/
def downHeld (keys : List String) : Bool := keys.contains "ArrowDown" || keys.contains "s"

/-- The `// input` block of `update`: the pair `(ix, iy)`. -/
def inputDir (keys : List String) : K × K :=
  let ix : K := 0
  let iy : K := 0
  let ix := if leftHeld keys then ix - 1 else ix
  let ix := if rightHeld keys then ix + 1 else ix
  let iy := if upHeld keys then iy - 1 else iy
  let iy := if downHeld keys then iy + 1 else iy
  (ix, iy)

/-- The value `len` of `const len = Math.hypot(ix, iy) || 1`. -/
def inputLen (hypot : K → K → K) (keys : List String) : K :=
  let ix := (inputDir keys : K × K).1
  let iy := (inputDir keys : K × K).2
  if hypot ix iy = 0 then 1 else hypot ix iy

/-- The `// normalized movement` and `// bounds` blocks of `update`: the new
velocity, the integrated position and its clamp. -/
def movePlayer (hypot : K → K → K) (keys : List String) (dt : K) (p : Player K) : Player K :=
  let ix := (inputDir keys : K × K).1
  let iy := (inputDir keys : K × K).2
  let len := if hypot ix iy = 0 then 1 else hypot ix iy
  let vx := (ix / len) * p.speed
  let vy := (iy / len) * p.speed
  let x := p.x + vx * dt
  let y := p.y + vy * dt
  { p with vx := vx, vy := vy, x := clamp x p.r (960 - p.r), y := clamp y p.r (540 - p.r) }

/-- The `// spawns` block of `update`. -/
def spawns (dt : K) (d : Draws K) (s : State K) : State K :=
  let s := { s with spawn := { coinIn := s.spawn.coinIn - dt, hazardIn := s.spawn.hazardIn - dt } }
  let s := if s.spawn.coinIn ≤ 0 then
      let s := spawnCoin d s
      { s with spawn := { s.spawn with coinIn := rand 0.25 0.65 d.coinT } }
    else s
  let s := if s.spawn.hazardIn ≤ 0 then
      let s := spawnHazard d s
      { s with spawn := { s.spawn with hazardIn := rand 0.55 1.05 d.hazT } }
    else s
  s

/-- One iteration body of `for (const h of state.hazards){ h.x += h.vx * dt; }`. -/
def moveHazard (dt : K) (h : Hazard K) : Hazard K := { h with x := h.x + h.vx * dt }

/-- The `// hazards movement` block of `update`. -/
def moveHazards (dt : K) (hs : List (Hazard K)) : List (Hazard K) :=
  (hs.map (moveHazard dt)).filter (fun h => decide (h.x > -40))

/-- The `// collisions: coins` loop. `coinLoop p n coins score` runs the
iterations `i = n - 1, ..., 0`; `update` starts it at `n = coins.length`. An
index outside the array cannot occur there and is skipped. -/
def coinLoop (p : Circle K) : Nat → List (Coin K) → Int → List (Coin K) × Int
  | 0, coins, score => (coins, score)
  | i + 1, coins, score =>
    match coins[i]? with
    | some c =>
      if circleHit p c.circle then coinLoop p i (coins.eraseIdx i) (score + 10)
      else coinLoop p i coins score
    | none => coinLoop p i coins score

/-- The `// collisions: hazards` loop, iterations `i = n - 1, ..., 0`. The
result is the hazard array, `lives`, and whether the loop left `update`
through `gameOver(); return;`. -/
def hazardLoop (p : Circle K) : Nat → List (Hazard K) → Int → List (Hazard K) × Int × Bool
  | 0, hazards, lives => (hazards, lives, false)
  | i + 1, hazards, lives =>
    match hazards[i]? with
    | some h =>
      if circleHit p h.circle then
        if lives - 1 ≤ 0 then (hazards.eraseIdx i, lives - 1, true)
        else hazardLoop p i (hazards.eraseIdx i) (lives - 1)
      else hazardLoop p i hazards lives
    | none => hazardLoop p i hazards lives

/-- State after the player blocks of `update` (input, movement, bounds). -/
def afterMove (hypot : K → K → K) (dt : K) (s : State K) : State K :=
  { s with player := movePlayer hypot s.keys dt s.player }

/-- State after the `// spawns` block. -/
def afterSpawn (hypot : K → K → K) (dt : K) (d : Draws K) (s : State K) : State K :=
  spawns dt d (afterMove hypot dt s)

/-- State after the `// hazards movement` block. -/
def afterHazardMove (hypot : K → K → K) (dt : K) (d : Draws K) (s : State K) : State K :=
  let s := afterSpawn hypot dt d s
  { s with hazards := moveHazards dt s.hazards }

/-- State after the `// collisions: coins` loop. -/
def afterCoins (hypot : K → K → K) (dt : K) (d : Draws K) (s : State K) : State K :=
  let s := afterHazardMove hypot dt d s
  let r := coinLoop s.player.circle s.coins.length s.coins s.score
  { s with coins := r.1, score := r.2 }

/-- Function `update`. -/
def update (hypot : K → K → K) (dt : K) (d : Draws K) (w : World K) : World K :=
  let s := afterCoins hypot dt d w.state
  let r := hazardLoop s.player.circle s.hazards.length s.hazards s.lives
  let w := { w with state := { s with hazards := r.1, lives := r.2.1 } }
  if r.2.2 then gameOver w else syncHud w

/-- The `dt` that `loop` computes from the timestamp `ts` and `state.tPrev`:
`Math.min(0.033, t - (state.tPrev || t))` with `t = ts / 1000`. -/
def frameDt (ts tPrev : K) : K :=
  let t := ts / 1000
  min 0.033 (t - (if tPrev = 0 then t else tPrev))

/-- Function `loop`, the frame callback. -/
def loop (hypot : K → K → K) (ts : K) (d : Draws K) (w : World K) : World K :=
  if !w.state.running then w
  else
    let t := ts / 1000
    let dt := frameDt ts w.state.tPrev
    let w := { w with state := { w.state with tPrev := t } }
    let w := update hypot dt d w
    { w with rafRequests := w.rafRequests + 1 }

/-- The click handler of the start button. -/
def startClick (w : World K) : World K :=
  let w := reset w
  let w := { w with state := { w.state with running := true } }
  let w := { w with state := { w.state with tPrev := 0 } }
  { w with rafRequests := w.rafRequests + 1 }

/-- The `keydown` handler: `state.keys.add(e.key)`. -/
def keydown (key : String) (w : World K) : World K :=
  { w with state := { w.state with
      keys := if w.state.keys.contains key then w.state.keys else w.state.keys ++ [key] } }

/-- The `keyup` handler: `state.keys.delete(e.key)`. -/
def keyup (key : String) (w : World K) : World K :=
  { w with state := { w.state with keys := w.state.keys.filter (fun k => k != key) } }

/-- The `pointerdown` handler of the canvas. -/
def pointerdown (w : World K) : World K := { w with dragging := true }

/-- The `pointerup` handler of the window. -/
def pointerup (w : World K) : World K := { w with dragging := false }

/-- The `pointermove` handler of the canvas. -/
def pointermove (clientX clientY : K) (rect : Rect K) (w : World K) : World K :=
  if !w.dragging then w
  else
    let x := (clientX - rect.left) * (960 / rect.width)
    let y := (clientY - rect.top) * (540 / rect.height)
    let p := w.state.player
    let p := { p with x := clamp x p.r (960 - p.r) }
    let p := { p with y := clamp y p.r (540 - p.r) }
    { w with state := { w.state with player := p } }

/-- The initial value of the module state (`const state = ...`,
`let dragging = false`), over the page's initial HUD `ui`. -/
def initial (ui : Ui) : World K :=
  { state :=
      { running := false
        score := 0
        lives := 3
        best := none
        tPrev := 0
        keys := []
        player := { x := 120, y := 270, r := 22, vx := 0, vy := 0, speed := 720 }
        coins := []
        hazards := []
        spawn := { coinIn := 0, hazardIn := 0 } }
    ui := ui
    dragging := false
    rafRequests := 0 }

/-- An event the page can deliver to the module. -/
inductive Event (K : Type) where
  | start
  | frame (ts : K) (d : Draws K)
  | keydown (key : String)
  | keyup (key : String)
  | pointerdown
  | pointerup
  | pointermove (clientX clientY : K) (rect : Rect K)

/-- The handler that runs for an event. -/
def step (hypot : K → K → K) (w : World K) : Event K → World K
  | Event.start => startClick w
  | Event.frame ts d => loop hypot ts d w
  | Event.keydown key => keydown key w
  | Event.keyup key => keyup key w
  | Event.pointerdown => pointerdown w
  | Event.pointerup => pointerup w
  | Event.pointermove clientX clientY rect => pointermove clientX clientY rect w

/-- The module state after a sequence of events, oldest first. -/
def run (hypot : K → K → K) (w : World K) (es : List (Event K)) : World K :=
  es.foldl (step hypot) w

/-- The player lies inside the canvas inset by its radius. -/
def InBounds (p : Player K) : Prop :=
  p.r ≤ p.x ∧ p.x ≤ 960 - p.r ∧ p.r ≤ p.y ∧ p.y ≤ 540 - p.r

instance (p : Player K) : Decidable (InBounds p) := by
  unfold InBounds
  exact inferInstance

/-- At least one of the four directional inputs is active. -/
def directionalActive (keys : List String) : Bool :=
  leftHeld keys || rightHeld keys || upHeld keys || downHeld keys

/-- The session facts of a state: `lives` between 0 and 3, `score` a
non-negative multiple of 10, and at least one life while running. -/
def SessionInv (s : State K) : Prop :=
  0 ≤ s.lives ∧ s.lives ≤ 3 ∧ 0 ≤ s.score ∧ 10 ∣ s.score ∧
    (s.running = true → 1 ≤ s.lives)

instance (s : State K) : Decidable (SessionInv s) := by
  unfold SessionInv
  exact inferInstance

/-- The test `circleHit(p, e)` of the collision loops, on a hazard. -/
def hitsHazard (p : Player K) (h : Hazard K) : Bool := circleHit p.circle h.circle

/-- The test `circleHit(p, e)` of the collision loops, on a coin. -/
def hitsCoin (p : Player K) (c : Coin K) : Bool := circleHit p.circle c.circle

/-- A variant of `update` that removes the hazards left of the bound after the
collision loops instead of before them: the other order the specification
allows for hazard expiry. Everything else is as in `update`. -/
def updateExpireLast (hypot : K → K → K) (dt : K) (d : Draws K) (w : World K) : World K :=
  let s := afterSpawn hypot dt d w.state
  let s := { s with hazards := s.hazards.map (moveHazard dt) }
  let rc := coinLoop s.player.circle s.coins.length s.coins s.score
  let s := { s with coins := rc.1, score := rc.2 }
  let r := hazardLoop s.player.circle s.hazards.length s.hazards s.lives
  let w := { w with state :=
    { s with hazards := r.1.filter (fun h => decide (h.x > -40)), lives := r.2.1 } }
  if r.2.2 then gameOver w else syncHud w

/-- A coin as `spawnCoin` makes it: radius 12, `x` in [220, 920], `y` in
[60, 480]. -/
def CoinWF (c : Coin K) : Prop :=
  c.r = 12 ∧ 220 ≤ c.x ∧ c.x ≤ 920 ∧ 60 ≤ c.y ∧ c.y ≤ 480

/-- A hazard as `spawnHazard` makes it, wherever it has moved since: a rocket
of radius 14 and `vx = -520` or a bomb of radius 18 and `vx = -320`, with `y`
in [70, 470]. -/
def HazardWF (h : Hazard K) : Prop :=
  ((h.type = HazardType.rocket ∧ h.r = 14 ∧ h.vx = -520) ∨
    (h.type = HazardType.bomb ∧ h.r = 18 ∧ h.vx = -320)) ∧ 70 ≤ h.y ∧ h.y ≤ 470

/-- Every value drawn from `Math.random()` lies in [0, 1). -/
def DrawsInRange (d : Draws K) : Prop :=
  (0 ≤ d.coinX ∧ d.coinX < 1) ∧ (0 ≤ d.coinY ∧ d.coinY < 1) ∧
  (0 ≤ d.coinT ∧ d.coinT < 1) ∧ (0 ≤ d.hazType ∧ d.hazType < 1) ∧
  (0 ≤ d.hazY ∧ d.hazY < 1) ∧ (0 ≤ d.hazT ∧ d.hazT < 1)

/-- The module state after a sequence of `update` calls, oldest first, each
with its `dt` and its draws. -/
def runUpdates (hypot : K → K → K) (w : World K) (fs : List (K × Draws K)) : World K :=
  fs.foldl (fun w f => update hypot f.1 f.2 w) w

/-- The specification's `PhysicsStep.advance(dt)`: player velocity from the
input, position integrated and clamped, and every hazard in the store moved by
`x += vx * dt`. -/
def specAdvance (hypot : K → K → K) (dt : K) (s : State K) : State K :=
  { s with
    player := movePlayer hypot s.keys dt s.player
    hazards := s.hazards.map (moveHazard dt) }

/-- The specification's `SpawnScheduler.tick(dt)`: both timers are decremented,
and a timer that has reached 0 or less emits one spawn and is reset. -/
def specTick (dt : K) (d : Draws K) (s : State K) : State K :=
  let coinIn := s.spawn.coinIn - dt
  let hazardIn := s.spawn.hazardIn - dt
  { s with
    coins := if coinIn ≤ 0 then s.coins ++ [newCoin d] else s.coins
    hazards := if hazardIn ≤ 0 then s.hazards ++ [newHazard d] else s.hazards
    spawn :=
      { coinIn := if coinIn ≤ 0 then rand 0.25 0.65 d.coinT else coinIn
        hazardIn := if hazardIn ≤ 0 then rand 0.55 1.05 d.hazT else hazardIn } }

/-- The specification's `CollisionResolver` followed by the game-over check and
the HUD publication: expired hazards are removed, coin and hazard collisions
are resolved with the loops of `update`, the game ends when the hazard loop
says so, and the HUD is published. -/
def specResolve (w : World K) : World K :=
  let s := w.state
  let s := { s with hazards := s.hazards.filter (fun h => decide (h.x > -40)) }
  let rc := coinLoop s.player.circle s.coins.length s.coins s.score
  let s := { s with coins := rc.1, score := rc.2 }
  let r := hazardLoop s.player.circle s.hazards.length s.hazards s.lives
  let w := { w with state := { s with hazards := r.1, lives := r.2.1 } }
  if r.2.2 then syncHud (gameOver w) else syncHud w

/-- The pipeline in the specification's order: advance, tick, resolve. -/
def specPipeline (hypot : K → K → K) (dt : K) (d : Draws K) (w : World K) : World K :=
  specResolve { w with state := specTick dt d (specAdvance hypot dt w.state) }

/-- The pipeline in the order of `update`: the player part of advance, tick,
the hazard part of advance (which so also moves a hazard spawned by this
tick), resolve. -/
def codeOrderPipeline (hypot : K → K → K) (dt : K) (d : Draws K) (w : World K) : World K :=
  let s := { w.state with player := movePlayer hypot w.state.keys dt w.state.player }
  let s := specTick dt d s
  let s := { s with hazards := s.hazards.map (moveHazard dt) }
  specResolve { w with state := s }

/-- One event on a world paired with the timestamp of the previous frame of the
current session: a start click begins a session with no previous frame, a
frame callback that runs (the game is running) becomes the previous frame, and
any other event leaves it as it was. -/
def trackStep (hypot : K → K → K) (p : World K × Option K) (e : Event K) :
    World K × Option K :=
  (step hypot p.1 e,
    match e with
    | Event.start => none
    | Event.frame ts _ => if p.1.state.running then some ts else p.2
    | _ => p.2)

/-- The timestamp of the previous frame of the current session after the events
`es`, if there is one. -/
def previousFrame (hypot : K → K → K) (w : World K) (es : List (Event K)) : Option K :=
  (es.foldl (trackStep hypot) (w, none)).2

/-- The stored `state.tPrev` agrees with the previous frame of the session: it
is 0 when there is none and that frame's timestamp in seconds, which is not 0,
when there is one. -/
def TrackInv (p : World K × Option K) : Prop :=
  match p.2 with
  | none => p.1.state.tPrev = 0
  | some tp => tp ≠ 0 ∧ p.1.state.tPrev = tp / 1000

/-- No frame callback of `es` has timestamp 0 (`requestAnimationFrame` passes
the time since the page's time origin, which is positive after a click). -/
def FrameTimestampsNonzero (es : List (Event K)) : Prop :=
  ∀ (ts : K) (d : Draws K), Event.frame ts d ∈ es → ts ≠ 0

/-- The world reached from the initial state by a start click followed by
pressing the keys `keys`, oldest first. -/
def worldWithKeys (keys : List String) : World K :=
  run (fun _ _ => 0) (initial ⟨"0", "3", "—", true⟩)
    (Event.start :: keys.map Event.keydown)

end Defs

section Worlds

/-- A world in which the player stands at (100,100) with no key held and one
coin lies at (105,100). -/
def coinPickupWorld : World ℚ :=
  { state :=
      { running := true
        score := 0
        lives := 3
        best := none
        tPrev := 1
        keys := []
        player := { x := 100, y := 100, r := 22, vx := 0, vy := 0, speed := 720 }
        coins := [{ x := 105, y := 100, r := 12 }]
        hazards := []
        spawn := { coinIn := 1, hazardIn := 1 } }
    ui := { score := "0", lives := "3", best := "—", submitDisabled := true }
    dragging := false
    rafRequests := 1 }

/-- A world with two lives left in which, after a frame of `dt = 1/32`, a bomb
and a rocket overlap the player and a second bomb is far away. -/
def hazardWorld : World ℚ :=
  { state :=
      { running := true
        score := 0
        lives := 2
        best := none
        tPrev := 1
        keys := []
        player := { x := 100, y := 100, r := 22, vx := 0, vy := 0, speed := 720 }
        coins := []
        hazards :=
          [{ type := HazardType.bomb, x := 110, y := 100, r := 18, vx := -320 },
           { type := HazardType.bomb, x := 500, y := 300, r := 18, vx := -320 },
           { type := HazardType.rocket, x := 100, y := 110, r := 14, vx := -520 }]
        spawn := { coinIn := 1, hazardIn := 1 } }
    ui := { score := "0", lives := "2", best := "—", submitDisabled := true }
    dragging := false
    rafRequests := 1 }

/-- The world `hazardWorld` with one life left. -/
def fatalWorld : World ℚ :=
  { hazardWorld with state := { hazardWorld.state with lives := 1 } }

/-- The bomb of `boundaryWorld`: 10 pixels right of the left bound `-40`. -/
def boundaryBomb : Hazard ℚ :=
  { type := HazardType.bomb, x := -30, y := 270, r := 18, vx := -320 }

/-- A running world whose only hazard is `boundaryBomb`; a frame of
`dt = 1/32` moves it to `x = -40` exactly. -/
def boundaryWorld : World ℚ :=
  { state :=
      { running := true
        score := 0
        lives := 3
        best := none
        tPrev := 1
        keys := []
        player := { x := 120, y := 270, r := 22, vx := 0, vy := 0, speed := 720 }
        coins := []
        hazards := [boundaryBomb]
        spawn := { coinIn := 1, hazardIn := 1 } }
    ui := { score := "0", lives := "3", best := "—", submitDisabled := true }
    dragging := false
    rafRequests := 1 }

/-- A running world with no entities whose hazard timer fires in the next
frame. -/
def spawnDueWorld : World ℚ :=
  { state :=
      { running := true
        score := 0
        lives := 3
        best := none
        tPrev := 1
        keys := []
        player := { x := 120, y := 270, r := 22, vx := 0, vy := 0, speed := 720 }
        coins := []
        hazards := []
        spawn := { coinIn := 1, hazardIn := 1 / 100 } }
    ui := { score := "0", lives := "3", best := "—", submitDisabled := true }
    dragging := false
    rafRequests := 1 }

/-- The world `fatalWorld` with its HUD in step with its state. -/
def fatalSyncedWorld : World ℚ := syncHud fatalWorld

/-- Draws that are all zero. -/
def zeroDraws : Draws ℚ := ⟨0, 0, 0, 0, 0, 0⟩

/-- The IEEE 754 double `1.4142135623730951` that `Math.hypot(1, 1)` returns,
as the rational `6369051672525773 / 2^52`; its square is above 2. -/
def hypotOneOneDouble : ℚ := 6369051672525773 / 4503599627370496

/-- A stand-in for `Math.hypot` that is exact at (0,0), the only point where
the worlds above call it. -/
def hypotZero : ℚ → ℚ → ℚ := fun _ _ => 0

end Worlds

section Api

/-!
The score API of `src/controllers/scores.controller.js` and
`src/models/scores.model.js`.

A handler is a function from the part of the request it reads to the response
it sends together with the queries it issues. `pool.query` is a parameter
`poolQuery` that returns the rows of a query (a rejected query is outside the
model), and `Number(text)` on a string is a parameter `stringToNumber`.
JavaScript strings are `String`s; `length` counts UTF-16 code units.
-/

/-- A JavaScript number: a finite value, kept exact, `NaN`, or an infinity. -/
inductive JsNumber where
  | finite (q : ℚ)
  | nan
  | posInf
  | negInf
deriving DecidableEq

/-- A JavaScript value, as far as the controllers tell values apart. -/
inductive JsValue where
  | undefined
  | null
  | boolean (b : Bool)
  | number (n : JsNumber)
  | string (s : String)
  | object
deriving DecidableEq

/-- The fields `createScore` reads from `req.body`; a field that is absent is
`undefined`. -/
structure Body where
  playerName : JsValue
  score : JsValue
deriving DecidableEq

/-- A row of the table `scores`, as `RETURNING` and `SELECT` give it. -/
structure Row where
  id : Int
  player_name : String
  score : Int
  created_at : String
deriving DecidableEq

/-- A call `pool.query(text, params)`. -/
structure Query where
  text : String
  params : List JsValue
deriving DecidableEq

/-- The JSON a handler sends. -/
inductive ResponseBody where
  | error (message : String)
  | created (row : Option Row)
  | rows (rows : List Row)
deriving DecidableEq

/-- The response a handler sends. -/
structure Response where
  status : Nat
  body : ResponseBody
deriving DecidableEq

/-- What a handler did: the response it sent and the queries it issued, oldest
first. -/
structure Handled where
  response : Response
  queries : List Query
deriving DecidableEq

/-- The number of UTF-16 code units of a character. -/
def utf16Units (c : Char) : Nat := if c.val < 0x10000 then 1 else 2

/-- The property `length` of a string. -/
def jsLength (s : String) : Nat := (s.data.map utf16Units).sum

/-- The characters `String.prototype.trim` removes: ECMAScript white space and
line terminators. -/
def isJsWhiteSpace (c : Char) : Bool :=
  c.val = 0x9 || c.val = 0xA || c.val = 0xB || c.val = 0xC || c.val = 0xD || c.val = 0x20 ||
  c.val = 0xA0 || c.val = 0x1680 || (0x2000 ≤ c.val && c.val ≤ 0x200A) || c.val = 0x2028 ||
  c.val = 0x2029 || c.val = 0x202F || c.val = 0x205F || c.val = 0x3000 || c.val = 0xFEFF

/-- The method `trim` of a string. -/
def jsTrim (s : String) : String :=
  String.mk ((s.data.dropWhile isJsWhiteSpace).rdropWhile isJsWhiteSpace)

/-- The function `Math.min` on two numbers. -/
def mathMin : JsNumber → JsNumber → JsNumber
  | JsNumber.nan, _ => JsNumber.nan
  | _, JsNumber.nan => JsNumber.nan
  | JsNumber.negInf, _ => JsNumber.negInf
  | _, JsNumber.negInf => JsNumber.negInf
  | JsNumber.posInf, b => b
  | a, JsNumber.posInf => a
  | JsNumber.finite x, JsNumber.finite y => JsNumber.finite (min x y)

/-- The function `Math.max` on two numbers. -/
def mathMax : JsNumber → JsNumber → JsNumber
  | JsNumber.nan, _ => JsNumber.nan
  | _, JsNumber.nan => JsNumber.nan
  | JsNumber.posInf, _ => JsNumber.posInf
  | _, JsNumber.posInf => JsNumber.posInf
  | JsNumber.negInf, b => b
  | a, JsNumber.negInf => a
  | JsNumber.finite x, JsNumber.finite y => JsNumber.finite (max x y)

/-- The text of the query of `Scores.createScore`. -/
def insertSql : String :=
  "INSERT INTO scores (player_name, score) VALUES ($1, $2) " ++
  "RETURNING id, player_name, score, created_at"

/-- The text of the query of `Scores.listTopScores`. -/
def topSql : String :=
  "SELECT player_name, score, created_at FROM scores " ++
  "ORDER BY score DESC, created_at ASC LIMIT $1"

/-- Function `createScore` of the model: one `INSERT` with the two values as
parameters; the result is `rows[0]`. -/
def Scores.createScore (poolQuery : Query → List Row) (playerName : String) (score : JsValue) :
    Option Row × List Query :=
  let q : Query := { text := insertSql, params := [JsValue.string playerName, score] }
  ((poolQuery q).head?, [q])

/-- Function `listTopScores` of the model. -/
def Scores.listTopScores (poolQuery : Query → List Row) (limit : JsNumber) :
    List Row × List Query :=
  let q : Query := { text := topSql, params := [JsValue.number limit] }
  (poolQuery q, [q])

/-- The expression `Number(req.query.limit || 10)`: an absent or empty
parameter is falsy and gives 10, any other text goes through `Number`. -/
def limitNumber (stringToNumber : String → JsNumber) : Option String → JsNumber
  | none => JsNumber.finite 10
  | some s => if s = "" then JsNumber.finite 10 else stringToNumber s

/-- The `limit` that the controller's `listTopScores` computes. -/
def topLimit (stringToNumber : String → JsNumber) (limit : Option String) : JsNumber :=
  mathMax (JsNumber.finite 1) (mathMin (JsNumber.finite 50) (limitNumber stringToNumber limit))

/-- Function `listTopScores` of the controller, on the query parameter
`limit`. -/
def listTopScores (stringToNumber : String → JsNumber) (poolQuery : Query → List Row)
    (limit : Option String) : Handled :=
  let limit := topLimit stringToNumber limit
  let r := Scores.listTopScores poolQuery limit
  { response := { status := 200, body := ResponseBody.rows r.1 }, queries := r.2 }

/-- The call `Number.isInteger(v)`. -/
def numberIsInteger : JsValue → Bool
  | JsValue.number (JsNumber.finite q) => decide (q.den = 1)
  | _ => false

/-- The test `score < 0 || score > 1_000_000`, which the controller reaches
only for a finite number. -/
def scoreOutOfRange : JsValue → Bool
  | JsValue.number (JsNumber.finite q) => decide (q < 0) || decide (q > 1000000)
  | _ => false

/-- The expression `req.body || {}`: a missing body is a body with no fields. -/
def bodyOrEmpty (body : Option Body) : Body :=
  body.getD { playerName := JsValue.undefined, score := JsValue.undefined }

/-- Function `createScore` of the controller, on `req.body` (`none` when the
request has no body object). -/
def createScore (poolQuery : Query → List Row) (body : Option Body) : Handled :=
  let b : Body := bodyOrEmpty body
  match b.playerName with
  | JsValue.string playerName =>
    if jsLength (jsTrim playerName) < 1 || jsLength playerName > 20 then
      { response := { status := 400, body := ResponseBody.error "playerName must be 1-20 chars" }
        queries := [] }
    else if !numberIsInteger b.score || scoreOutOfRange b.score then
      { response :=
          { status := 400, body := ResponseBody.error "score must be an integer 0..1000000" }
        queries := [] }
    else
      let r := Scores.createScore poolQuery (jsTrim playerName) b.score
      { response := { status := 201, body := ResponseBody.created r.1 }, queries := r.2 }
  | _ =>
    { response := { status := 400, body := ResponseBody.error "playerName must be 1-20 chars" }
      queries := [] }

/-- The rejection conditions of a score submission in the specification's
words: the name is not a string, or is empty after trimming, or is longer than
20, or the score is not an integer, or is below 0, or is above 1,000,000. -/
def InvalidSubmission (b : Body) : Prop :=
  (∀ s : String, b.playerName ≠ JsValue.string s) ∨
  (∃ s : String, b.playerName = JsValue.string s ∧ (jsTrim s = "" ∨ 20 < jsLength s)) ∨
  (∀ z : Int, b.score ≠ JsValue.number (JsNumber.finite z)) ∨
  (∃ z : Int, b.score = JsValue.number (JsNumber.finite z) ∧ (z < 0 ∨ 1000000 < z))

/-- A number `L` with `1 ≤ L ≤ 50`. -/
def LimitInRange : JsNumber → Prop
  | JsNumber.finite q => 1 ≤ q ∧ q ≤ 50
  | _ => False

/-- A database stand-in that returns one fixed row for every query. -/
def oneRowDb : Query → List Row :=
  fun _ => [{ id := 1, player_name := "ada", score := 120, created_at := "2025-01-01" }]

end Api

section Lemmas
variable {K : Type} [LinearOrderedField K]

/-- The coin loop, run over the first `a.length` indices, keeps exactly the
coins of `a` that do not hit and adds 10 per coin of `a` that does. -/
theorem coinLoop_append (p : Circle K) (a b : List (Coin K)) (score : Int) :
    coinLoop p a.length (a ++ b) score =
      ((a.filter fun c => !circleHit p c.circle) ++ b,
        score + 10 * (a.countP fun c => circleHit p c.circle)) := by
  induction a using List.reverseRecOn generalizing b score with
  | nil => simp [coinLoop]
  | append_singleton a c ih =>
    have hget : (a ++ [c] ++ b)[a.length]? = some c := by
      rw [List.append_assoc, List.getElem?_append_right (le_refl _)]; simp
    have herase : (a ++ [c] ++ b).eraseIdx a.length = a ++ b := by
      rw [List.append_assoc, List.eraseIdx_append_of_length_le (le_refl _)]
      simp
    rw [List.length_append, List.length_singleton, coinLoop, hget]
    by_cases hc : circleHit p c.circle = true
    · simp only [hc, if_true, herase, ih]
      simp [List.filter_append, List.countP_append, hc]
      ring
    · simp only [hc, if_false]
      rw [List.append_assoc, ih]
      simp [List.filter_append, List.countP_append, hc]

/-- The hazard loop, run over the first `a.length` indices with `L ≥ 1` lives:
what it removes from `a`, the lives left and whether it ended the game. -/
theorem hazardLoop_append (p : Circle K) (a b : List (Hazard K)) (L : Int) (hL : 1 ≤ L) :
    ∃ a' : List (Hazard K),
      (hazardLoop p a.length (a ++ b) L).1 = a' ++ b ∧
      a'.Sublist a ∧
      (a'.length : Int) + min ((a.countP fun h => circleHit p h.circle : Nat) : Int) L =
        a.length ∧
      (a'.filter fun h => !circleHit p h.circle) = (a.filter fun h => !circleHit p h.circle) ∧
      (((a.countP fun h => circleHit p h.circle : Nat) : Int) < L →
        a' = a.filter fun h => !circleHit p h.circle) ∧
      (hazardLoop p a.length (a ++ b) L).2.1 =
        max 0 (L - (a.countP fun h => circleHit p h.circle : Nat)) ∧
      ((hazardLoop p a.length (a ++ b) L).2.2 = true ↔
        L ≤ (a.countP fun h => circleHit p h.circle : Nat)) := by
  induction a using List.reverseRecOn generalizing b L with
  | nil =>
    refine ⟨[], ?_⟩
    simp [hazardLoop]
    omega
  | append_singleton a h ih =>
    have hget : (a ++ [h] ++ b)[a.length]? = some h := by
      rw [List.append_assoc, List.getElem?_append_right (le_refl _)]; simp
    have herase : (a ++ [h] ++ b).eraseIdx a.length = a ++ b := by
      rw [List.append_assoc, List.eraseIdx_append_of_length_le (le_refl _)]
      simp
    rw [List.length_append, List.length_singleton, hazardLoop, hget]
    by_cases hc : circleHit p h.circle = true
    · by_cases h1 : L - 1 ≤ 0
      · refine ⟨a, ?_⟩
        simp only [hc, if_true, h1, herase]
        simp [List.filter_append, List.countP_append, hc]
        refine ⟨?_, ?_, ?_, ?_⟩ <;> omega
      · obtain ⟨a', e1, e2, e3, e4, e5, e6, e7⟩ := ih b (L - 1) (by omega)
        refine ⟨a', ?_⟩
        simp only [hc, if_true, h1, if_false, herase]
        simp only [List.filter_append, List.countP_append, List.length_append]
        simp [hc]
        refine ⟨e1, e2.trans (List.sublist_append_left _ _), ?_, e4, ?_, ?_, ?_⟩
        · simp only [min_def] at e3 ⊢
          split_ifs at e3 ⊢ <;> omega
        · intro hk
          exact e5 (by omega)
        · rw [e6]
          simp only [max_def]
          split_ifs <;> omega
        · rw [e7]
          omega
    · obtain ⟨a', e1, e2, e3, e4, e5, e6, e7⟩ := ih ([h] ++ b) L hL
      refine ⟨a' ++ [h], ?_⟩
      simp only [hc, if_false]
      simp only [List.append_assoc] at e1 e6 e7 ⊢
      simp only [List.filter_append, List.countP_append, List.length_append]
      simp [hc]
      refine ⟨by simpa using e1, ?_, ?_, e4, ?_, ?_, ?_⟩
      · exact e2
      · omega
      · intro hk
        rw [e5 hk]
      · simpa using e6
      · simpa using e7

theorem clamp_bounds (v a b : K) (hab : a ≤ b) : a ≤ clamp v a b ∧ clamp v a b ≤ b := by
  unfold clamp
  exact ⟨le_max_left _ _, max_le hab (min_le_left _ _)⟩

theorem movePlayer_r (hypot : K → K → K) (keys : List String) (dt : K) (p : Player K) :
    (movePlayer hypot keys dt p).r = p.r ∧ (movePlayer hypot keys dt p).speed = p.speed := by
  simp [movePlayer]

theorem movePlayer_inBounds (hypot : K → K → K) (keys : List String) (dt : K) (p : Player K)
    (hr : p.r = 22) : InBounds (movePlayer hypot keys dt p) := by
  have hx := clamp_bounds (p.x + (inputDir keys : K × K).1 /
      (if hypot (inputDir keys : K × K).1 (inputDir keys : K × K).2 = 0 then 1
        else hypot (inputDir keys : K × K).1 (inputDir keys : K × K).2) * p.speed * dt)
      p.r (960 - p.r) (by rw [hr]; norm_num)
  have hy := clamp_bounds (p.y + (inputDir keys : K × K).2 /
      (if hypot (inputDir keys : K × K).1 (inputDir keys : K × K).2 = 0 then 1
        else hypot (inputDir keys : K × K).1 (inputDir keys : K × K).2) * p.speed * dt)
      p.r (540 - p.r) (by rw [hr]; norm_num)
  exact ⟨hx.1, hx.2, hy.1, hy.2⟩

/-- The `// spawns` block touches only `coins`, `hazards` and `spawn`. -/
theorem spawns_frame (dt : K) (d : Draws K) (s : State K) :
    (spawns dt d s).player = s.player ∧ (spawns dt d s).score = s.score ∧
    (spawns dt d s).lives = s.lives ∧ (spawns dt d s).running = s.running ∧
    (spawns dt d s).keys = s.keys ∧ (spawns dt d s).best = s.best ∧
    (spawns dt d s).tPrev = s.tPrev := by
  unfold spawns spawnCoin spawnHazard
  dsimp only
  split_ifs <;> simp

/-- What the blocks of `update` before the hazard loop leave unchanged. -/
theorem afterCoins_frame (hypot : K → K → K) (dt : K) (d : Draws K) (s : State K) :
    (afterCoins hypot dt d s).player = movePlayer hypot s.keys dt s.player ∧
    (afterCoins hypot dt d s).lives = s.lives ∧
    (afterCoins hypot dt d s).running = s.running ∧
    (afterCoins hypot dt d s).keys = s.keys ∧
    (afterCoins hypot dt d s).best = s.best ∧
    (afterCoins hypot dt d s).tPrev = s.tPrev ∧
    (afterCoins hypot dt d s).hazards = (afterHazardMove hypot dt d s).hazards ∧
    (afterCoins hypot dt d s).spawn = (afterSpawn hypot dt d s).spawn := by
  have h := spawns_frame dt d (afterMove hypot dt s)
  simp only [afterCoins, afterHazardMove, afterSpawn]
  simp only [h.1, h.2.2.1, h.2.2.2.1, h.2.2.2.2.1, h.2.2.2.2.2.1, h.2.2.2.2.2.2]
  simp [afterMove]

theorem afterHazardMove_frame (hypot : K → K → K) (dt : K) (d : Draws K) (s : State K) :
    (afterHazardMove hypot dt d s).player = movePlayer hypot s.keys dt s.player ∧
    (afterHazardMove hypot dt d s).score = s.score ∧
    (afterHazardMove hypot dt d s).coins = (afterSpawn hypot dt d s).coins ∧
    (afterHazardMove hypot dt d s).hazards = moveHazards dt (afterSpawn hypot dt d s).hazards := by
  have h := spawns_frame dt d (afterMove hypot dt s)
  simp only [afterHazardMove, afterSpawn]
  simp only [h.1, h.2.1]
  simp [afterMove]

/-- The part of the state `update` returns that does not depend on how the
hazard loop ended. -/
theorem update_state (hypot : K → K → K) (dt : K) (d : Draws K) (w : World K) :
    (update hypot dt d w).state =
      { afterCoins hypot dt d w.state with
        hazards := (hazardLoop (afterCoins hypot dt d w.state).player.circle
          (afterCoins hypot dt d w.state).hazards.length
          (afterCoins hypot dt d w.state).hazards (afterCoins hypot dt d w.state).lives).1
        lives := (hazardLoop (afterCoins hypot dt d w.state).player.circle
          (afterCoins hypot dt d w.state).hazards.length
          (afterCoins hypot dt d w.state).hazards (afterCoins hypot dt d w.state).lives).2.1
        running := (afterCoins hypot dt d w.state).running &&
          !(hazardLoop (afterCoins hypot dt d w.state).player.circle
          (afterCoins hypot dt d w.state).hazards.length
          (afterCoins hypot dt d w.state).hazards (afterCoins hypot dt d w.state).lives).2.2 } := by
  unfold update
  dsimp only
  split_ifs with h
  · simp [gameOver, h]
  · simp [syncHud, h]

theorem update_player (hypot : K → K → K) (dt : K) (d : Draws K) (w : World K) :
    (update hypot dt d w).state.player = movePlayer hypot w.state.keys dt w.state.player := by
  rw [update_state]
  exact (afterCoins_frame hypot dt d w.state).1

/-- An invariant kept by every handler holds after every sequence of events. -/
theorem run_invariant (hypot : K → K → K) (Inv : World K → Prop)
    (hstep : ∀ w e, Inv w → Inv (step hypot w e)) (es : List (Event K)) :
    ∀ w, Inv w → Inv (run hypot w es) := by
  induction es with
  | nil => intro w hw; exact hw
  | cons e es ih => intro w hw; exact ih _ (hstep w e hw)

theorem reset_player (w : World K) :
    (reset w).state.player = { w.state.player with x := 120, y := 270, vx := 0, vy := 0 } := by
  simp [reset, syncHud]

theorem pointermove_player (clientX clientY : K) (rect : Rect K) (w : World K) :
    (pointermove clientX clientY rect w).state.player.r = w.state.player.r ∧
    (w.state.player.r = 22 → (w.dragging = true ∨ InBounds w.state.player) →
      InBounds (pointermove clientX clientY rect w).state.player) := by
  unfold pointermove
  cases hd : w.dragging
  · simp
  · refine ⟨by simp, fun hr _ => ?_⟩
    simp only [Bool.not_true, Bool.false_eq_true, if_false]
    have hx := clamp_bounds ((clientX - rect.left) * (960 / rect.width))
      w.state.player.r (960 - w.state.player.r) (by rw [hr]; norm_num)
    have hy := clamp_bounds ((clientY - rect.top) * (540 / rect.height))
      w.state.player.r (540 - w.state.player.r) (by rw [hr]; norm_num)
    exact ⟨hx.1, hx.2, hy.1, hy.2⟩

/-- The frame callback does nothing unless the game is running; when it is, it
stores the timestamp, calls `update` with the clamped delta and requests the
next frame. -/
theorem loop_eq (hypot : K → K → K) (ts : K) (d : Draws K) (w : World K) :
    loop hypot ts d w =
      if w.state.running = true then
        { update hypot (frameDt ts w.state.tPrev) d
            { w with state := { w.state with tPrev := ts / 1000 } } with
          rafRequests := (update hypot (frameDt ts w.state.tPrev) d
            { w with state := { w.state with tPrev := ts / 1000 } }).rafRequests + 1 }
      else w := by
  unfold loop
  cases w.state.running <;> simp

/-- Every handler keeps the radius 22 and the player inside the bounds. -/
theorem step_bounds (hypot : K → K → K) (w : World K) (e : Event K)
    (h : w.state.player.r = 22 ∧ InBounds w.state.player) :
    (step hypot w e).state.player.r = 22 ∧ InBounds (step hypot w e).state.player := by
  obtain ⟨hr, hb⟩ := h
  cases e with
  | start =>
    have hp : (startClick w).state.player = (reset w).state.player := by simp [startClick]
    simp only [step, hp, reset_player]
    refine ⟨hr, ?_⟩
    simp only [InBounds, hr]
    norm_num
  | frame ts d =>
    simp only [step, loop_eq]
    by_cases hrun : w.state.running = true
    · rw [if_pos hrun]
      simp only [update_player]
      exact ⟨(movePlayer_r hypot _ _ _).1.trans hr, movePlayer_inBounds hypot _ _ _ hr⟩
    · rw [if_neg hrun]
      exact ⟨hr, hb⟩
  | keydown key => exact ⟨hr, hb⟩
  | keyup key => exact ⟨hr, hb⟩
  | pointerdown => exact ⟨hr, hb⟩
  | pointerup => exact ⟨hr, hb⟩
  | pointermove cx cy rect =>
    have h := pointermove_player cx cy rect w
    exact ⟨h.1.trans hr, h.2 hr (Or.inr hb)⟩

/-- C1 (bounds invariant). With player radius 22, `reset`, `update` (for every
key set, `dt`, random draws and `hypot`) and an active pointer drag (for every
pointer position and rectangle) leave `r ≤ x ≤ 960 - r` and `r ≤ y ≤ 540 - r`;
hence the radius is 22 and the bounds hold after every sequence of events from
the initial state. -/
theorem C1_bounds_invariant :
    (∀ w : World K, w.state.player.r = 22 → InBounds (reset w).state.player) ∧
    (∀ (hypot : K → K → K) (dt : K) (d : Draws K) (w : World K),
      w.state.player.r = 22 → InBounds (update hypot dt d w).state.player) ∧
    (∀ (clientX clientY : K) (rect : Rect K) (w : World K),
      w.state.player.r = 22 → w.dragging = true →
      InBounds (pointermove clientX clientY rect w).state.player) ∧
    (∀ (hypot : K → K → K) (ui : Ui) (es : List (Event K)),
      (run hypot (initial ui) es).state.player.r = 22 ∧
      InBounds (run hypot (initial ui) es).state.player) := by
  refine ⟨?_, ?_, ?_, ?_⟩
  · intro w hr
    rw [reset_player]
    simp only [InBounds, hr]
    norm_num
  · intro hypot dt d w hr
    rw [update_player]
    exact movePlayer_inBounds hypot _ _ _ hr
  · intro cx cy rect w hr hd
    exact (pointermove_player cx cy rect w).2 hr (Or.inl hd)
  · intro hypot ui es
    refine run_invariant hypot
      (fun w => w.state.player.r = 22 ∧ InBounds w.state.player)
      (step_bounds hypot) es _ ?_
    simp only [initial, InBounds]
    norm_num

/-- The coin loop as `update` starts it: a filter and a count. -/
theorem coinLoop_full (p : Circle K) (coins : List (Coin K)) (score : Int) :
    coinLoop p coins.length coins score =
      (coins.filter (fun c => !circleHit p c.circle),
        score + 10 * (coins.countP fun c => circleHit p c.circle)) := by
  have h := coinLoop_append p coins [] score
  simpa using h

/-- Coins and score after `update`, from the coins after the spawn block. -/
theorem update_coins_score (hypot : K → K → K) (dt : K) (d : Draws K) (w : World K) :
    (update hypot dt d w).state.coins =
      (afterSpawn hypot dt d w.state).coins.filter
        (fun c => !hitsCoin (movePlayer hypot w.state.keys dt w.state.player) c) ∧
    (update hypot dt d w).state.score =
      w.state.score + 10 * ((afterSpawn hypot dt d w.state).coins.countP
        (hitsCoin (movePlayer hypot w.state.keys dt w.state.player)) : Nat) := by
  have hf := afterHazardMove_frame hypot dt d w.state
  rw [update_state]
  simp only [afterCoins, coinLoop_full, hf.1, hf.2.1, hf.2.2.1]
  exact ⟨rfl, rfl⟩

/-- C2 (coin resolution). With `C` the coins after this call's spawn block and
`p` the player after movement and clamping, `update` leaves exactly the coins
of `C` that do not collide with `p`, in order and unchanged, and adds to the
score 10 times the number of coins of `C` that collide with `p`. If no coin of
`C` collides, coins and score are unchanged; a coin that collides is gone. A
player at (100,100) of radius 22 collides with a coin at (105,100) of radius 12. -/
theorem C2_coin_resolution (hypot : K → K → K) (dt : K) (d : Draws K) (w : World K) :
    (update hypot dt d w).state.coins =
      (afterSpawn hypot dt d w.state).coins.filter
        (fun c => !hitsCoin (movePlayer hypot w.state.keys dt w.state.player) c) ∧
    (update hypot dt d w).state.score =
      w.state.score + 10 * ((afterSpawn hypot dt d w.state).coins.countP
        (hitsCoin (movePlayer hypot w.state.keys dt w.state.player)) : Nat) ∧
    ((∀ c ∈ (afterSpawn hypot dt d w.state).coins,
        hitsCoin (movePlayer hypot w.state.keys dt w.state.player) c = false) →
      (update hypot dt d w).state.coins = (afterSpawn hypot dt d w.state).coins ∧
      (update hypot dt d w).state.score = w.state.score) ∧
    (∀ c ∈ (afterSpawn hypot dt d w.state).coins,
        hitsCoin (movePlayer hypot w.state.keys dt w.state.player) c = true →
        c ∉ (update hypot dt d w).state.coins) ∧
    (∀ vx vy speed : K,
      hitsCoin { x := 100, y := 100, r := 22, vx := vx, vy := vy, speed := speed }
        { x := 105, y := 100, r := 12 } = true) := by
  obtain ⟨hc, hs⟩ := update_coins_score hypot dt d w
  refine ⟨hc, hs, ?_, ?_, ?_⟩
  · intro hno
    rw [hc, hs]
    constructor
    · rw [List.filter_eq_self]
      intro c hcm
      simp [hno c hcm]
    · have h0 : (afterSpawn hypot dt d w.state).coins.countP
          (hitsCoin (movePlayer hypot w.state.keys dt w.state.player)) = 0 := by
        rw [List.countP_eq_zero]
        intro c hcm
        simp [hno c hcm]
      rw [h0]
      simp
  · intro c _ hhit hmem
    rw [hc, List.mem_filter] at hmem
    simp [hhit] at hmem
  · intro vx vy speed
    simp only [hitsCoin, circleHit, Player.circle, Coin.circle, decide_eq_true_eq]
    norm_num

/-- The coin pickup scenario of C2, run on `coinPickupWorld` with `dt = 1/60`
(no key is held, so `hypot` is called at (0,0), where it is 0):
the score becomes 10 and the coin is removed. -/
theorem C2_coin_pickup_witness :
    (update hypotZero (1 / 60) zeroDraws coinPickupWorld).state.score = 10 ∧
    (update hypotZero (1 / 60) zeroDraws coinPickupWorld).state.coins = [] := by
  have h := C2_coin_resolution hypotZero (1 / 60) zeroDraws coinPickupWorld
  rw [h.1, h.2.1]
  norm_num [coinPickupWorld, hypotZero, zeroDraws, afterSpawn, afterMove, spawns, movePlayer,
    inputDir, leftHeld, rightHeld, upHeld, downHeld, clamp, hitsCoin, circleHit, Player.circle,
    Coin.circle, List.countP_cons]

/-- The hazard loop as `update` starts it, with `L ≥ 1` lives and `k` hazards
of `hs` that hit. -/
theorem hazardLoop_full (p : Circle K) (hs : List (Hazard K)) (L : Int) (hL : 1 ≤ L) :
    (hazardLoop p hs.length hs L).1.Sublist hs ∧
    ((hazardLoop p hs.length hs L).1.length : Int) +
      min ((hs.countP fun h => circleHit p h.circle : Nat) : Int) L = hs.length ∧
    ((hazardLoop p hs.length hs L).1.filter fun h => !circleHit p h.circle) =
      (hs.filter fun h => !circleHit p h.circle) ∧
    (((hs.countP fun h => circleHit p h.circle : Nat) : Int) < L →
      (hazardLoop p hs.length hs L).1 = hs.filter fun h => !circleHit p h.circle) ∧
    (hazardLoop p hs.length hs L).2.1 =
      max 0 (L - (hs.countP fun h => circleHit p h.circle : Nat)) ∧
    ((hazardLoop p hs.length hs L).2.2 = true ↔
      L ≤ (hs.countP fun h => circleHit p h.circle : Nat)) := by
  obtain ⟨a', e1, e2, e3, e4, e5, e6, e7⟩ := hazardLoop_append p hs [] L hL
  simp only [List.append_nil] at e1 e6 e7
  rw [e1]
  exact ⟨e2, e3, e4, e5, e6, e7⟩

/-- C3 (hazard resolution). Start `update` with `lives = L ≥ 1`; let `H` be the
hazards after movement and the left-bound filter, `p` the moved player and `k`
the number of hazards of `H` that collide with `p`. Then `lives` becomes
`max 0 (L - k)` (so it does not increase), a running game stops exactly when
`k ≥ L`, the hazards left are `H` with exactly `min k L` colliding hazards
removed (a sublist of `H` of that length with the same non-colliding hazards),
and when `k < L` no colliding hazard remains. -/
theorem C3_hazard_resolution (hypot : K → K → K) (dt : K) (d : Draws K) (w : World K)
    (hL : 1 ≤ w.state.lives) :
    (update hypot dt d w).state.lives =
      max 0 (w.state.lives - ((afterHazardMove hypot dt d w.state).hazards.countP
        (hitsHazard (movePlayer hypot w.state.keys dt w.state.player)) : Nat)) ∧
    (update hypot dt d w).state.lives ≤ w.state.lives ∧
    (w.state.running = true →
      ((update hypot dt d w).state.running = false ↔
        w.state.lives ≤ ((afterHazardMove hypot dt d w.state).hazards.countP
          (hitsHazard (movePlayer hypot w.state.keys dt w.state.player)) : Nat))) ∧
    (update hypot dt d w).state.hazards.Sublist (afterHazardMove hypot dt d w.state).hazards ∧
    ((update hypot dt d w).state.hazards.length : Int) +
        min (((afterHazardMove hypot dt d w.state).hazards.countP
          (hitsHazard (movePlayer hypot w.state.keys dt w.state.player)) : Nat) : Int)
          w.state.lives =
      (afterHazardMove hypot dt d w.state).hazards.length ∧
    (∀ h ∈ (afterHazardMove hypot dt d w.state).hazards,
      hitsHazard (movePlayer hypot w.state.keys dt w.state.player) h = false →
      h ∈ (update hypot dt d w).state.hazards) ∧
    ((((afterHazardMove hypot dt d w.state).hazards.countP
        (hitsHazard (movePlayer hypot w.state.keys dt w.state.player)) : Nat) : Int) <
        w.state.lives →
      (update hypot dt d w).state.hazards =
        (afterHazardMove hypot dt d w.state).hazards.filter
          (fun h => !hitsHazard (movePlayer hypot w.state.keys dt w.state.player) h) ∧
      ∀ h ∈ (update hypot dt d w).state.hazards,
        hitsHazard (movePlayer hypot w.state.keys dt w.state.player) h = false) := by
  obtain ⟨fp, fl, fr, -, -, -, fh, -⟩ := afterCoins_frame hypot dt d w.state
  obtain ⟨g1, g2, g3, g4, g5, g6⟩ := hazardLoop_full
    (movePlayer hypot w.state.keys dt w.state.player).circle
    (afterHazardMove hypot dt d w.state).hazards w.state.lives hL
  have e : hitsHazard (movePlayer hypot w.state.keys dt w.state.player) =
      fun h => circleHit (movePlayer hypot w.state.keys dt w.state.player).circle h.circle :=
    rfl
  rw [update_state]
  simp only [fp, fl, fr, fh, e]
  refine ⟨g5, ?_, ?_, g1, g2, ?_, ?_⟩
  · rw [g5]
    simp only [max_def]
    split_ifs <;> omega
  · intro hrun
    rw [hrun, ← g6]
    simp
  · intro h hm hno
    have : h ∈ (afterHazardMove hypot dt d w.state).hazards.filter
        (fun h => !circleHit (movePlayer hypot w.state.keys dt w.state.player).circle
          h.circle) := by
      rw [List.mem_filter]
      exact ⟨hm, by simpa using hno⟩
    rw [← g3] at this
    exact (List.mem_filter.mp this).1
  · intro hk
    refine ⟨g4 hk, ?_⟩
    intro h hm
    rw [g4 hk, List.mem_filter] at hm
    simpa using hm.2

/-- C3 on `hazardWorld` (two lives, two colliding hazards after the frame):
lives reach 0, the game stops and only the far bomb, moved by the frame, is
left. -/
theorem C3_hazard_resolution_witness :
    1 ≤ hazardWorld.state.lives ∧
    (update hypotZero (1 / 32) zeroDraws hazardWorld).state.lives = 0 ∧
    (update hypotZero (1 / 32) zeroDraws hazardWorld).state.running = false ∧
    (update hypotZero (1 / 32) zeroDraws hazardWorld).state.hazards.length = 1 := by
  have hL : 1 ≤ hazardWorld.state.lives := by decide
  have h := C3_hazard_resolution hypotZero (1 / 32) zeroDraws hazardWorld hL
  have hk : (afterHazardMove hypotZero (1 / 32) zeroDraws hazardWorld.state).hazards.countP
      (hitsHazard (movePlayer hypotZero hazardWorld.state.keys (1 / 32)
        hazardWorld.state.player)) = 2 := by
    norm_num [hazardWorld, hypotZero, zeroDraws, afterHazardMove, afterSpawn, afterMove,
      spawns, movePlayer, inputDir, leftHeld, rightHeld, upHeld, downHeld, clamp, moveHazards,
      moveHazard, hitsHazard, circleHit, Player.circle, Hazard.circle, List.countP_cons,
      List.filter_cons]
  have hlen : (afterHazardMove hypotZero (1 / 32) zeroDraws hazardWorld.state).hazards.length
      = 3 := by
    norm_num [hazardWorld, hypotZero, zeroDraws, afterHazardMove, afterSpawn, afterMove,
      spawns, movePlayer, inputDir, leftHeld, rightHeld, upHeld, downHeld, clamp, moveHazards,
      moveHazard, List.filter_cons]
  rw [hk] at h
  obtain ⟨h1, -, h3, -, h5, -, -⟩ := h
  have hl2 : hazardWorld.state.lives = 2 := rfl
  rw [hl2] at h1 h3 h5
  rw [hlen] at h5
  refine ⟨hL, ?_, ?_, ?_⟩
  · rw [h1]; norm_num
  · exact (h3 rfl).mpr (by norm_num)
  · norm_num at h5
    omega

/-- Lives and the running flag after `update`, for a call made with at least
one life. -/
theorem update_session (hypot : K → K → K) (dt : K) (d : Draws K) (w : World K)
    (h : SessionInv w.state) (hrun : w.state.running = true) :
    SessionInv (update hypot dt d w).state := by
  obtain ⟨h0, h3, hs, hd, hl⟩ := h
  have hL := hl hrun
  obtain ⟨-, fl, fr, -, -, -, fh, -⟩ := afterCoins_frame hypot dt d w.state
  obtain ⟨-, -, -, -, g5, g6⟩ := hazardLoop_full
    (afterCoins hypot dt d w.state).player.circle
    (afterCoins hypot dt d w.state).hazards w.state.lives hL
  obtain ⟨-, hsc⟩ := update_coins_score hypot dt d w
  refine ⟨?_, ?_, ?_, ?_, ?_⟩
  · rw [update_state]
    simp only [fl, g5]
    exact le_max_left _ _
  · rw [update_state]
    simp only [fl, g5]
    simp only [max_def]
    split_ifs <;> omega
  · rw [hsc]
    omega
  · rw [hsc]
    exact dvd_add hd (dvd_mul_right _ _)
  · rw [update_state]
    simp only [fl, fr, g5, hrun, Bool.true_and, Bool.not_eq_true', ← Bool.not_eq_true, g6]
    intro hlt
    simp only [max_def]
    split_ifs <;> omega

/-- Every handler keeps the session facts. -/
theorem step_session (hypot : K → K → K) (w : World K) (e : Event K)
    (h : SessionInv w.state) : SessionInv (step hypot w e).state := by
  cases e with
  | start =>
    simp [step, startClick, reset, syncHud, SessionInv]
  | frame ts d =>
    simp only [step, loop_eq]
    by_cases hrun : w.state.running = true
    · rw [if_pos hrun]
      exact update_session hypot _ d _ h hrun
    · rw [if_neg hrun]
      exact h
  | keydown key => exact h
  | keyup key => exact h
  | pointerdown => exact h
  | pointerup => exact h
  | pointermove cx cy rect =>
    have hs : (pointermove cx cy rect w).state.lives = w.state.lives ∧
        (pointermove cx cy rect w).state.score = w.state.score ∧
        (pointermove cx cy rect w).state.running = w.state.running := by
      unfold pointermove
      cases w.dragging <;> simp
    simp only [step, SessionInv, hs.1, hs.2.1, hs.2.2]
    exact h

/-- C4 (session-state invariant). After every sequence of start clicks, frame
callbacks, key events and drag events from the initial state, `lives` is an
integer between 0 and 3, `score` is a non-negative multiple of 10, and a
running game has at least one life. -/
theorem C4_session_invariant (hypot : K → K → K) (ui : Ui) (es : List (Event K)) :
    0 ≤ (run hypot (initial ui) es).state.lives ∧
    (run hypot (initial ui) es).state.lives ≤ 3 ∧
    0 ≤ (run hypot (initial ui) es).state.score ∧
    10 ∣ (run hypot (initial ui) es).state.score ∧
    ((run hypot (initial ui) es).state.running = true →
      1 ≤ (run hypot (initial ui) es).state.lives) := by
  have h := run_invariant hypot (fun w => SessionInv w.state) (step_session hypot) es
    (initial ui) (by simp [initial, SessionInv])
  exact h

/-- The net direction is zero exactly when left and right agree and up and
down agree (both held or both released). -/
theorem inputDir_eq_zero_iff (keys : List String) :
    (inputDir keys : K × K) = (0, 0) ↔
      (leftHeld keys = rightHeld keys ∧ upHeld keys = downHeld keys) := by
  unfold inputDir
  cases leftHeld keys <;> cases rightHeld keys <;> cases upHeld keys <;>
    cases downHeld keys <;> simp

/-- The velocity `update` assigns: zero for a zero net direction, and of
magnitude `speed` for a non-zero one when `hypot` is exact there. -/
theorem movePlayer_velocity (hypot : K → K → K) (keys : List String) (dt : K) (p : Player K) :
    ((inputDir keys : K × K) = (0, 0) →
      (movePlayer hypot keys dt p).vx = 0 ∧ (movePlayer hypot keys dt p).vy = 0) ∧
    ((inputDir keys : K × K) ≠ (0, 0) →
      hypot (inputDir keys : K × K).1 (inputDir keys : K × K).2 *
          hypot (inputDir keys : K × K).1 (inputDir keys : K × K).2 =
        (inputDir keys : K × K).1 * (inputDir keys : K × K).1 +
          (inputDir keys : K × K).2 * (inputDir keys : K × K).2 →
      (movePlayer hypot keys dt p).vx ^ 2 + (movePlayer hypot keys dt p).vy ^ 2 =
        p.speed ^ 2) := by
  constructor
  · intro h0
    simp [movePlayer, h0]
  · intro hne hh
    have hsq : (inputDir keys : K × K).1 * (inputDir keys : K × K).1 +
        (inputDir keys : K × K).2 * (inputDir keys : K × K).2 ≠ 0 := by
      intro h
      apply hne
      have h1 := mul_self_nonneg (inputDir keys : K × K).1
      have h2 := mul_self_nonneg (inputDir keys : K × K).2
      have e1 : (inputDir keys : K × K).1 = 0 := mul_self_eq_zero.mp (by linarith)
      have e2 : (inputDir keys : K × K).2 = 0 := mul_self_eq_zero.mp (by linarith)
      exact Prod.ext e1 e2
    have hlen : hypot (inputDir keys : K × K).1 (inputDir keys : K × K).2 ≠ 0 := by
      intro h
      rw [h, mul_zero] at hh
      exact hsq hh.symm
    simp only [movePlayer, if_neg hlen]
    field_simp
    rw [pow_two (hypot _ _), hh]
    ring

/-- The velocity `update` assigns is `ix / len * speed`, `iy / len * speed`
with `len = Math.hypot(ix, iy) || 1`, which is never 0. -/
theorem movePlayer_velocity_eq (hypot : K → K → K) (keys : List String) (dt : K)
    (p : Player K) :
    inputLen hypot keys ≠ 0 ∧
    (movePlayer hypot keys dt p).vx =
      (inputDir keys : K × K).1 / inputLen hypot keys * p.speed ∧
    (movePlayer hypot keys dt p).vy =
      (inputDir keys : K × K).2 / inputLen hypot keys * p.speed := by
  refine ⟨?_, rfl, rfl⟩
  unfold inputLen
  dsimp only
  split_ifs with h
  · exact one_ne_zero
  · exact h

/-- The squared length of the net direction: 0 when both axes cancel or are
idle, 1 when exactly one axis is active, 2 on a diagonal. -/
theorem inputDir_sq (keys : List String) :
    ((leftHeld keys = rightHeld keys ∧ upHeld keys = downHeld keys) →
      (inputDir keys : K × K).1 ^ 2 + (inputDir keys : K × K).2 ^ 2 = 0) ∧
    ((leftHeld keys ≠ rightHeld keys ∧ upHeld keys = downHeld keys) ∨
        (leftHeld keys = rightHeld keys ∧ upHeld keys ≠ downHeld keys) →
      (inputDir keys : K × K).1 ^ 2 + (inputDir keys : K × K).2 ^ 2 = 1) ∧
    ((leftHeld keys ≠ rightHeld keys ∧ upHeld keys ≠ downHeld keys) →
      (inputDir keys : K × K).1 ^ 2 + (inputDir keys : K × K).2 ^ 2 = 2) := by
  unfold inputDir
  cases leftHeld keys <;> cases rightHeld keys <;> cases upHeld keys <;>
    cases downHeld keys <;> norm_num

/-- The magnitude of the velocity `update` assigns, for every `hypot`:
`(vx^2 + vy^2) * len^2 = (ix^2 + iy^2) * speed^2`. -/
theorem movePlayer_magnitude (hypot : K → K → K) (keys : List String) (dt : K)
    (p : Player K) :
    ((movePlayer hypot keys dt p).vx ^ 2 + (movePlayer hypot keys dt p).vy ^ 2) *
        inputLen hypot keys ^ 2 =
      ((inputDir keys : K × K).1 ^ 2 + (inputDir keys : K × K).2 ^ 2) * p.speed ^ 2 := by
  obtain ⟨hl, hx, hy⟩ := movePlayer_velocity_eq hypot keys dt p
  rw [hx, hy]
  field_simp
  ring

/-- C5 as amended (movement normalization). Opposite inputs cancel. With
`len = Math.hypot(ix, iy) || 1`, which is never 0, `update` assigns
`vx = ix / len * speed` and `vy = iy / len * speed` and leaves `speed`
unchanged, so for every `hypot`
`(vx^2 + vy^2) * len^2 = (ix^2 + iy^2) * speed^2`, where `ix^2 + iy^2` is 0
for a zero net direction, 1 for a single axis and 2 for a diagonal. For a zero
net direction (left and right both held or both released, and likewise up and
down; in particular no directional input active) `vx = vy = 0`. The equation
`vx^2 + vy^2 = speed^2` holds when `len^2 = ix^2 + iy^2`, and for a non-zero
`speed` only then: on a single axis exactly when `len^2 = 1`, on a diagonal
exactly when `len^2 = 2`; and on a diagonal `vx^2 + vy^2 = 2 * speed^2`, the
magnitude `speed * sqrt 2`, exactly when `len^2 = 1`. -/
theorem C5_movement_normalization (hypot : K → K → K) (dt : K) (d : Draws K) (w : World K) :
    inputLen hypot w.state.keys ≠ 0 ∧
    (update hypot dt d w).state.player.speed = w.state.player.speed ∧
    (update hypot dt d w).state.player.vx =
      (inputDir w.state.keys : K × K).1 / inputLen hypot w.state.keys *
        w.state.player.speed ∧
    (update hypot dt d w).state.player.vy =
      (inputDir w.state.keys : K × K).2 / inputLen hypot w.state.keys *
        w.state.player.speed ∧
    ((update hypot dt d w).state.player.vx ^ 2 + (update hypot dt d w).state.player.vy ^ 2) *
        inputLen hypot w.state.keys ^ 2 =
      ((inputDir w.state.keys : K × K).1 ^ 2 + (inputDir w.state.keys : K × K).2 ^ 2) *
        w.state.player.speed ^ 2 ∧
    ((leftHeld w.state.keys = rightHeld w.state.keys ∧
        upHeld w.state.keys = downHeld w.state.keys) →
      (update hypot dt d w).state.player.vx = 0 ∧ (update hypot dt d w).state.player.vy = 0) ∧
    (directionalActive w.state.keys = false →
      (update hypot dt d w).state.player.vx = 0 ∧ (update hypot dt d w).state.player.vy = 0) ∧
    (inputLen hypot w.state.keys ^ 2 =
        (inputDir w.state.keys : K × K).1 ^ 2 + (inputDir w.state.keys : K × K).2 ^ 2 →
      (update hypot dt d w).state.player.vx ^ 2 + (update hypot dt d w).state.player.vy ^ 2 =
        (update hypot dt d w).state.player.speed ^ 2) ∧
    (w.state.player.speed ≠ 0 →
      (((leftHeld w.state.keys ≠ rightHeld w.state.keys ∧
            upHeld w.state.keys = downHeld w.state.keys) ∨
          (leftHeld w.state.keys = rightHeld w.state.keys ∧
            upHeld w.state.keys ≠ downHeld w.state.keys)) →
        ((update hypot dt d w).state.player.vx ^ 2 +
            (update hypot dt d w).state.player.vy ^ 2 =
          (update hypot dt d w).state.player.speed ^ 2 ↔
          inputLen hypot w.state.keys ^ 2 = 1)) ∧
      ((leftHeld w.state.keys ≠ rightHeld w.state.keys ∧
          upHeld w.state.keys ≠ downHeld w.state.keys) →
        ((update hypot dt d w).state.player.vx ^ 2 +
            (update hypot dt d w).state.player.vy ^ 2 =
          (update hypot dt d w).state.player.speed ^ 2 ↔
          inputLen hypot w.state.keys ^ 2 = 2) ∧
        ((update hypot dt d w).state.player.vx ^ 2 +
            (update hypot dt d w).state.player.vy ^ 2 =
          2 * (update hypot dt d w).state.player.speed ^ 2 ↔
          inputLen hypot w.state.keys ^ 2 = 1))) ∧
    ((leftHeld w.state.keys = rightHeld w.state.keys ∧
        upHeld w.state.keys = downHeld w.state.keys) →
      (inputDir w.state.keys : K × K).1 ^ 2 + (inputDir w.state.keys : K × K).2 ^ 2 = 0) ∧
    ((leftHeld w.state.keys ≠ rightHeld w.state.keys ∧
          upHeld w.state.keys = downHeld w.state.keys) ∨
        (leftHeld w.state.keys = rightHeld w.state.keys ∧
          upHeld w.state.keys ≠ downHeld w.state.keys) →
      (inputDir w.state.keys : K × K).1 ^ 2 + (inputDir w.state.keys : K × K).2 ^ 2 = 1) ∧
    ((leftHeld w.state.keys ≠ rightHeld w.state.keys ∧
        upHeld w.state.keys ≠ downHeld w.state.keys) →
      (inputDir w.state.keys : K × K).1 ^ 2 + (inputDir w.state.keys : K × K).2 ^ 2 = 2) := by
  obtain ⟨hl, hx, hy⟩ := movePlayer_velocity_eq hypot w.state.keys dt w.state.player
  have hm := movePlayer_magnitude hypot w.state.keys dt w.state.player
  have hv := movePlayer_velocity hypot w.state.keys dt w.state.player
  have hz := @inputDir_eq_zero_iff K _ w.state.keys
  obtain ⟨-, hs1, hs2⟩ := @inputDir_sq K _ w.state.keys
  have hl2 : inputLen hypot w.state.keys ^ 2 ≠ 0 := pow_ne_zero 2 hl
  rw [update_player, (movePlayer_r hypot _ _ _).2]
  refine ⟨hl, rfl, hx, hy, hm, fun h => hv.1 (hz.mpr h), ?_, ?_, ?_,
    @inputDir_sq K _ w.state.keys⟩
  · intro h
    refine hv.1 (hz.mpr ?_)
    simp only [directionalActive, Bool.or_eq_false_iff] at h
    obtain ⟨⟨⟨h1, h2⟩, h3⟩, h4⟩ := h
    rw [h1, h2, h3, h4]
    exact ⟨rfl, rfl⟩
  · intro hsq
    rw [← hsq] at hm
    have := mul_right_cancel₀ hl2 (hm.trans (mul_comm _ _))
    exact this
  · intro hsp
    have hsp2 : w.state.player.speed ^ 2 ≠ 0 := pow_ne_zero 2 hsp
    refine ⟨fun h1 => ?_, fun h2 => ⟨?_, ?_⟩⟩
    · rw [hs1 h1, one_mul] at hm
      constructor
      · intro e
        rw [e] at hm
        have := mul_left_cancel₀ hsp2 (hm.trans (mul_one _).symm)
        exact this
      · intro e
        rw [e, mul_one] at hm
        exact hm
    · rw [hs2 h2] at hm
      constructor
      · intro e
        rw [e] at hm
        have := mul_left_cancel₀ hsp2 (hm.trans (mul_comm _ _))
        exact this
      · intro e
        rw [e] at hm
        have := mul_right_cancel₀ two_ne_zero (hm.trans (mul_comm _ _))
        exact this
    · rw [hs2 h2] at hm
      constructor
      · intro e
        rw [e] at hm
        have : (2 * w.state.player.speed ^ 2) * inputLen hypot w.state.keys ^ 2 =
            (2 * w.state.player.speed ^ 2) * 1 := by rw [hm, mul_one]
        exact mul_left_cancel₀ (mul_ne_zero two_ne_zero hsp2) this
      · intro e
        rw [e, mul_one] at hm
        exact hm

/-- C5 as stated fails, twice. With ArrowLeft and ArrowRight both held a
directional input is active, yet for every `hypot` the velocity `update`
assigns is zero while `speed` is 720. With ArrowRight and ArrowDown held, for
every `hypot` that returns at (1, 1) the double `1.4142135623730951` that
`Math.hypot(1, 1)` returns, `vx^2 + vy^2` is below `speed^2`, not equal to
it. -/
theorem C5_counterexample :
    (directionalActive (worldWithKeys ["ArrowLeft", "ArrowRight"] : World ℚ).state.keys = true ∧
    ∀ hypot : ℚ → ℚ → ℚ,
      (update hypot (1 / 60) zeroDraws
        (worldWithKeys ["ArrowLeft", "ArrowRight"])).state.player.vx = 0 ∧
      (update hypot (1 / 60) zeroDraws
        (worldWithKeys ["ArrowLeft", "ArrowRight"])).state.player.vy = 0 ∧
      (update hypot (1 / 60) zeroDraws
        (worldWithKeys ["ArrowLeft", "ArrowRight"])).state.player.speed = 720 ∧
      (update hypot (1 / 60) zeroDraws
          (worldWithKeys ["ArrowLeft", "ArrowRight"])).state.player.vx ^ 2 +
        (update hypot (1 / 60) zeroDraws
          (worldWithKeys ["ArrowLeft", "ArrowRight"])).state.player.vy ^ 2 ≠
        (update hypot (1 / 60) zeroDraws
          (worldWithKeys ["ArrowLeft", "ArrowRight"])).state.player.speed ^ 2) ∧
    (directionalActive (worldWithKeys ["ArrowRight", "ArrowDown"] : World ℚ).state.keys = true ∧
    ∀ hypot : ℚ → ℚ → ℚ, hypot 1 1 = hypotOneOneDouble →
      (update hypot (1 / 60) zeroDraws
        (worldWithKeys ["ArrowRight", "ArrowDown"])).state.player.speed = 720 ∧
      (update hypot (1 / 60) zeroDraws
          (worldWithKeys ["ArrowRight", "ArrowDown"])).state.player.vx ^ 2 +
        (update hypot (1 / 60) zeroDraws
          (worldWithKeys ["ArrowRight", "ArrowDown"])).state.player.vy ^ 2 <
        (update hypot (1 / 60) zeroDraws
          (worldWithKeys ["ArrowRight", "ArrowDown"])).state.player.speed ^ 2) := by
  constructor
  · have hk : (worldWithKeys ["ArrowLeft", "ArrowRight"] : World ℚ).state.keys =
        ["ArrowLeft", "ArrowRight"] := by
      simp [worldWithKeys, run, step, keydown, startClick, reset, syncHud, initial]
    have hs : (worldWithKeys ["ArrowLeft", "ArrowRight"] : World ℚ).state.player.speed =
        720 := by
      simp [worldWithKeys, run, step, keydown, startClick, reset, syncHud, initial]
    refine ⟨by rw [hk]; decide, ?_⟩
    intro hypot
    have h0 : (inputDir ["ArrowLeft", "ArrowRight"] : ℚ × ℚ) = (0, 0) :=
      (inputDir_eq_zero_iff _).mpr (by decide)
    have hv := (movePlayer_velocity hypot ["ArrowLeft", "ArrowRight"] (1 / 60)
      (worldWithKeys ["ArrowLeft", "ArrowRight"] : World ℚ).state.player).1 h0
    rw [update_player, hk, (movePlayer_r hypot _ _ _).2, hs, hv.1, hv.2]
    norm_num
  · have hk : (worldWithKeys ["ArrowRight", "ArrowDown"] : World ℚ).state.keys =
        ["ArrowRight", "ArrowDown"] := by
      simp [worldWithKeys, run, step, keydown, startClick, reset, syncHud, initial]
    have hs : (worldWithKeys ["ArrowRight", "ArrowDown"] : World ℚ).state.player.speed =
        720 := by
      simp [worldWithKeys, run, step, keydown, startClick, reset, syncHud, initial]
    refine ⟨by rw [hk]; decide, ?_⟩
    intro hypot hh
    have hd : (inputDir ["ArrowRight", "ArrowDown"] : ℚ × ℚ) = (1, 1) := by
      have e1 : leftHeld ["ArrowRight", "ArrowDown"] = false := by decide
      have e2 : rightHeld ["ArrowRight", "ArrowDown"] = true := by decide
      have e3 : upHeld ["ArrowRight", "ArrowDown"] = false := by decide
      have e4 : downHeld ["ArrowRight", "ArrowDown"] = true := by decide
      simp [inputDir, e1, e2, e3, e4]
    have hlen : inputLen hypot ["ArrowRight", "ArrowDown"] = hypotOneOneDouble := by
      simp only [inputLen, hd, hh]
      norm_num [hypotOneOneDouble]
    obtain ⟨-, hx, hy⟩ := movePlayer_velocity_eq hypot ["ArrowRight", "ArrowDown"] (1 / 60)
      (worldWithKeys ["ArrowRight", "ArrowDown"] : World ℚ).state.player
    rw [update_player, hk, (movePlayer_r hypot _ _ _).2, hs, hx, hy, hlen, hd, hs]
    norm_num [hypotOneOneDouble]

/-- C5 as amended, on the diagonal and on one axis. With ArrowRight and
ArrowDown held and the real `hypot`, `len^2 = 2` and the velocity has
`vx^2 + vy^2 = 720^2`; with ArrowRight alone and a `hypot` that is 1 at (1, 0),
`vx = 720` and `vy = 0`. -/
theorem C5_movement_normalization_witness :
    ((update (fun a b : ℝ => Real.sqrt (a * a + b * b)) (1 / 60) ⟨0, 0, 0, 0, 0, 0⟩
        (worldWithKeys ["ArrowRight", "ArrowDown"])).state.player.vx ^ 2 +
      (update (fun a b : ℝ => Real.sqrt (a * a + b * b)) (1 / 60) ⟨0, 0, 0, 0, 0, 0⟩
        (worldWithKeys ["ArrowRight", "ArrowDown"])).state.player.vy ^ 2 = 720 ^ 2) ∧
    (update (fun a b : ℚ => a * a + b * b) (1 / 60) zeroDraws
        (worldWithKeys ["ArrowRight"])).state.player.vx = 720 ∧
    (update (fun a b : ℚ => a * a + b * b) (1 / 60) zeroDraws
        (worldWithKeys ["ArrowRight"])).state.player.vy = 0 := by
  have h := C5_movement_normalization (fun a b : ℝ => Real.sqrt (a * a + b * b)) (1 / 60)
    ⟨0, 0, 0, 0, 0, 0⟩ (worldWithKeys ["ArrowRight", "ArrowDown"])
  have hk : (worldWithKeys ["ArrowRight", "ArrowDown"] : World ℝ).state.keys =
      ["ArrowRight", "ArrowDown"] := by
    simp [worldWithKeys, run, step, keydown, startClick, reset, syncHud, initial]
  have hs : (worldWithKeys ["ArrowRight", "ArrowDown"] : World ℝ).state.player.speed = 720 := by
    simp [worldWithKeys, run, step, keydown, startClick, reset, syncHud, initial]
  have hd : (inputDir ["ArrowRight", "ArrowDown"] : ℝ × ℝ) = (1, 1) := by
    have e1 : leftHeld ["ArrowRight", "ArrowDown"] = false := by decide
    have e2 : rightHeld ["ArrowRight", "ArrowDown"] = true := by decide
    have e3 : upHeld ["ArrowRight", "ArrowDown"] = false := by decide
    have e4 : downHeld ["ArrowRight", "ArrowDown"] = true := by decide
    simp [inputDir, e1, e2, e3, e4]
  have hlen : inputLen (fun a b : ℝ => Real.sqrt (a * a + b * b))
      ["ArrowRight", "ArrowDown"] ^ 2 = 2 := by
    have h2 : Real.sqrt ((1 : ℝ) * 1 + 1 * 1) ≠ 0 := by
      rw [Real.sqrt_ne_zero (by norm_num)]
      norm_num
    simp only [inputLen, hd, if_neg h2]
    rw [Real.sq_sqrt (by norm_num)]
    norm_num
  have g := C5_movement_normalization (fun a b : ℚ => a * a + b * b) (1 / 60)
    zeroDraws (worldWithKeys ["ArrowRight"])
  have gk : (worldWithKeys ["ArrowRight"] : World ℚ).state.keys = ["ArrowRight"] := by
    simp [worldWithKeys, run, step, keydown, startClick, reset, syncHud, initial]
  have gs : (worldWithKeys ["ArrowRight"] : World ℚ).state.player.speed = 720 := by
    simp [worldWithKeys, run, step, keydown, startClick, reset, syncHud, initial]
  have gd : (inputDir ["ArrowRight"] : ℚ × ℚ) = (1, 0) := by
    have e1 : leftHeld ["ArrowRight"] = false := by decide
    have e2 : rightHeld ["ArrowRight"] = true := by decide
    have e3 : upHeld ["ArrowRight"] = false := by decide
    have e4 : downHeld ["ArrowRight"] = false := by decide
    simp [inputDir, e1, e2, e3, e4]
  refine ⟨?_, ?_, ?_⟩
  · have h8 := h.2.2.2.2.2.2.2.1
    rw [hk, hd] at h8
    rw [h8 (by rw [hlen]; norm_num), h.2.1, hs]
  · rw [g.2.2.1, gk, gs]
    norm_num [inputLen, gd]
  · rw [g.2.2.2.1, gk, gs]
    norm_num [inputLen, gd]

/-- The `// spawns` block, field by field. -/
theorem spawns_eq (dt : K) (d : Draws K) (s : State K) :
    (spawns dt d s).coins =
      s.coins ++ (if s.spawn.coinIn - dt ≤ 0 then [newCoin d] else []) ∧
    (spawns dt d s).hazards =
      s.hazards ++ (if s.spawn.hazardIn - dt ≤ 0 then [newHazard d] else []) ∧
    (spawns dt d s).spawn.coinIn =
      (if s.spawn.coinIn - dt ≤ 0 then rand 0.25 0.65 d.coinT else s.spawn.coinIn - dt) ∧
    (spawns dt d s).spawn.hazardIn =
      (if s.spawn.hazardIn - dt ≤ 0 then rand 0.55 1.05 d.hazT else s.spawn.hazardIn - dt) := by
  unfold spawns spawnCoin spawnHazard
  dsimp only
  split_ifs <;> simp

/-- The state after the spawn block of `update`, field by field. -/
theorem afterSpawn_eq (hypot : K → K → K) (dt : K) (d : Draws K) (s : State K) :
    (afterSpawn hypot dt d s).coins =
      s.coins ++ (if s.spawn.coinIn - dt ≤ 0 then [newCoin d] else []) ∧
    (afterSpawn hypot dt d s).hazards =
      s.hazards ++ (if s.spawn.hazardIn - dt ≤ 0 then [newHazard d] else []) ∧
    (afterSpawn hypot dt d s).spawn.coinIn =
      (if s.spawn.coinIn - dt ≤ 0 then rand 0.25 0.65 d.coinT else s.spawn.coinIn - dt) ∧
    (afterSpawn hypot dt d s).spawn.hazardIn =
      (if s.spawn.hazardIn - dt ≤ 0 then rand 0.55 1.05 d.hazT else s.spawn.hazardIn - dt) :=
  spawns_eq dt d (afterMove hypot dt s)

/-- Hazards after `update` are a sublist of the hazards after the movement
block, whatever the number of lives. -/
theorem hazardLoop_sublist (p : Circle K) (a b : List (Hazard K)) (L : Int) :
    ∃ a' : List (Hazard K),
      (hazardLoop p a.length (a ++ b) L).1 = a' ++ b ∧ a'.Sublist a ∧
      (a'.filter fun h => !circleHit p h.circle) = (a.filter fun h => !circleHit p h.circle) := by
  induction a using List.reverseRecOn generalizing b L with
  | nil => exact ⟨[], by simp [hazardLoop]⟩
  | append_singleton a h ih =>
    have hget : (a ++ [h] ++ b)[a.length]? = some h := by
      rw [List.append_assoc, List.getElem?_append_right (le_refl _)]; simp
    have herase : (a ++ [h] ++ b).eraseIdx a.length = a ++ b := by
      rw [List.append_assoc, List.eraseIdx_append_of_length_le (le_refl _)]
      simp
    rw [List.length_append, List.length_singleton, hazardLoop, hget]
    by_cases hc : circleHit p h.circle = true
    · by_cases h1 : L - 1 ≤ 0
      · refine ⟨a, ?_⟩
        simp only [hc, if_true, h1, herase]
        exact ⟨by simp, List.sublist_append_left _ _, by simp [List.filter_append, hc]⟩
      · obtain ⟨a', e1, e2, e3⟩ := ih b (L - 1)
        refine ⟨a', ?_⟩
        simp only [hc, if_true, h1, if_false, herase]
        exact ⟨e1, e2.trans (List.sublist_append_left _ _), by
          simp [List.filter_append, hc, e3]⟩
    · obtain ⟨a', e1, e2, e3⟩ := ih ([h] ++ b) L
      refine ⟨a' ++ [h], ?_⟩
      simp only [hc, Bool.false_eq_true, if_false]
      rw [List.append_assoc, e1]
      exact ⟨by simp, List.Sublist.append e2 (List.Sublist.refl _), by
        simp [List.filter_append, hc, e3]⟩

/-- Hazards after `update`: a sublist of the moved and filtered hazards that
keeps every hazard that does not hit the player. -/
theorem update_hazards (hypot : K → K → K) (dt : K) (d : Draws K) (w : World K) :
    (update hypot dt d w).state.hazards.Sublist
      (moveHazards dt (afterSpawn hypot dt d w.state).hazards) ∧
    ((update hypot dt d w).state.hazards.filter
        fun h => !hitsHazard (movePlayer hypot w.state.keys dt w.state.player) h) =
      ((moveHazards dt (afterSpawn hypot dt d w.state).hazards).filter
        fun h => !hitsHazard (movePlayer hypot w.state.keys dt w.state.player) h) := by
  obtain ⟨fp, -, -, -, -, -, fh, -⟩ := afterCoins_frame hypot dt d w.state
  obtain ⟨a', e1, e2, e3⟩ := hazardLoop_sublist
    (movePlayer hypot w.state.keys dt w.state.player).circle
    (moveHazards dt (afterSpawn hypot dt d w.state).hazards) [] w.state.lives
  simp only [List.append_nil] at e1
  have hl : (afterCoins hypot dt d w.state).lives = w.state.lives :=
    (afterCoins_frame hypot dt d w.state).2.1
  rw [update_state]
  simp only [fp, fh, hl, (afterHazardMove_frame hypot dt d w.state).2.2.2, e1]
  exact ⟨e2, e3⟩

/-- C6 (spawn bound). For every state, `dt`, draws and `hypot`, one `update`
call inserts at most one coin and at most one hazard: the coins afterwards
are a sublist of the old coins followed by at most one new coin, the hazards
afterwards a sublist of the old hazards (each moved by this frame) followed by
at most one new hazard; from empty collections each has length at most 1. -/
theorem C6_spawn_bound (hypot : K → K → K) (dt : K) (d : Draws K) (w : World K) :
    (∃ fresh : List (Coin K), fresh.length ≤ 1 ∧
      (update hypot dt d w).state.coins.Sublist (w.state.coins ++ fresh)) ∧
    (∃ fresh : List (Hazard K), fresh.length ≤ 1 ∧
      (update hypot dt d w).state.hazards.Sublist
        (w.state.hazards.map (moveHazard dt) ++ fresh)) ∧
    (update hypot dt d w).state.coins.length ≤ w.state.coins.length + 1 ∧
    (update hypot dt d w).state.hazards.length ≤ w.state.hazards.length + 1 ∧
    (w.state.coins = [] → (update hypot dt d w).state.coins.length ≤ 1) ∧
    (w.state.hazards = [] → (update hypot dt d w).state.hazards.length ≤ 1) := by
  obtain ⟨sc, sh, -, -⟩ := afterSpawn_eq hypot dt d w.state
  obtain ⟨hc, -⟩ := update_coins_score hypot dt d w
  obtain ⟨hh, -⟩ := update_hazards hypot dt d w
  have hcs : (update hypot dt d w).state.coins.Sublist
      (w.state.coins ++ (if w.state.spawn.coinIn - dt ≤ 0 then [newCoin d] else [])) := by
    rw [hc, sc]
    exact List.filter_sublist _
  have hhs : (update hypot dt d w).state.hazards.Sublist
      (w.state.hazards.map (moveHazard dt) ++
        (if w.state.spawn.hazardIn - dt ≤ 0 then [moveHazard dt (newHazard d)] else [])) := by
    refine hh.trans ?_
    rw [sh, moveHazards, List.map_append]
    refine (List.filter_sublist _).trans ?_
    split_ifs <;> simp
  have lc : (if w.state.spawn.coinIn - dt ≤ 0 then [newCoin d] else []).length ≤ 1 := by
    split_ifs <;> simp
  have lh : (if w.state.spawn.hazardIn - dt ≤ 0 then [moveHazard dt (newHazard d)]
      else []).length ≤ 1 := by
    split_ifs <;> simp
  have c1 := hcs.length_le
  have c2 := hhs.length_le
  rw [List.length_append] at c1 c2
  rw [List.length_map] at c2
  refine ⟨⟨_, lc, hcs⟩, ⟨_, lh, hhs⟩, by omega, by omega, ?_, ?_⟩
  · intro he
    rw [he] at c1
    simp only [List.length_nil] at c1
    omega
  · intro he
    rw [he] at c2
    simp only [List.length_nil] at c2
    omega

/-- C6 at `dt = 10` right after a start click: at most one coin and at most one
hazard afterwards. -/
theorem C6_spawn_bound_witness :
    (update hypotZero 10 zeroDraws (worldWithKeys [])).state.coins.length ≤ 1 ∧
    (update hypotZero 10 zeroDraws (worldWithKeys [])).state.hazards.length ≤ 1 :=
  ⟨(C6_spawn_bound hypotZero 10 zeroDraws (worldWithKeys [])).2.2.2.2.1
      (by simp [worldWithKeys, run, step, startClick, reset, syncHud, initial]),
    (C6_spawn_bound hypotZero 10 zeroDraws (worldWithKeys [])).2.2.2.2.2
      (by simp [worldWithKeys, run, step, startClick, reset, syncHud, initial])⟩

theorem update_spawn (hypot : K → K → K) (dt : K) (d : Draws K) (w : World K) :
    (update hypot dt d w).state.spawn = (afterSpawn hypot dt d w.state).spawn := by
  rw [update_state]
  exact (afterCoins_frame hypot dt d w.state).2.2.2.2.2.2.2

theorem rand_bounds (a b u : K) (hab : a ≤ b) (h0 : 0 ≤ u) (h1 : u < 1) :
    a ≤ rand a b u ∧ rand a b u ≤ b := by
  unfold rand
  constructor <;> nlinarith

/-- C7 (spawn timers). With the timer draws in [0,1), in one `update(dt)` call:
if `coinIn - dt ≤ 0` exactly one coin is appended by the spawn block and
`coinIn` is reset into [0.25, 0.65], otherwise no coin is appended and `coinIn`
is its old value minus `dt`; likewise for hazards with `hazardIn` and
[0.55, 1.05]. Each category depends on its own timer only. -/
theorem C7_spawn_timers (hypot : K → K → K) (dt : K) (d : Draws K) (w : World K)
    (hc : 0 ≤ d.coinT ∧ d.coinT < 1) (hh : 0 ≤ d.hazT ∧ d.hazT < 1) :
    (w.state.spawn.coinIn - dt ≤ 0 →
      (afterSpawn hypot dt d w.state).coins = w.state.coins ++ [newCoin d] ∧
      0.25 ≤ (update hypot dt d w).state.spawn.coinIn ∧
      (update hypot dt d w).state.spawn.coinIn ≤ 0.65) ∧
    (¬ w.state.spawn.coinIn - dt ≤ 0 →
      (afterSpawn hypot dt d w.state).coins = w.state.coins ∧
      (update hypot dt d w).state.spawn.coinIn = w.state.spawn.coinIn - dt) ∧
    (w.state.spawn.hazardIn - dt ≤ 0 →
      (afterSpawn hypot dt d w.state).hazards = w.state.hazards ++ [newHazard d] ∧
      0.55 ≤ (update hypot dt d w).state.spawn.hazardIn ∧
      (update hypot dt d w).state.spawn.hazardIn ≤ 1.05) ∧
    (¬ w.state.spawn.hazardIn - dt ≤ 0 →
      (afterSpawn hypot dt d w.state).hazards = w.state.hazards ∧
      (update hypot dt d w).state.spawn.hazardIn = w.state.spawn.hazardIn - dt) := by
  obtain ⟨sc, sh, tc, th⟩ := afterSpawn_eq hypot dt d w.state
  rw [update_spawn, sc, sh, tc, th]
  have bc := rand_bounds (0.25 : K) 0.65 d.coinT (by norm_num) hc.1 hc.2
  have bh := rand_bounds (0.55 : K) 1.05 d.hazT (by norm_num) hh.1 hh.2
  refine ⟨?_, ?_, ?_, ?_⟩
  · intro h
    rw [if_pos h, if_pos h]
    exact ⟨rfl, bc⟩
  · intro h
    rw [if_neg h, if_neg h]
    exact ⟨List.append_nil _, rfl⟩
  · intro h
    rw [if_pos h, if_pos h]
    exact ⟨rfl, bh⟩
  · intro h
    rw [if_neg h, if_neg h]
    exact ⟨List.append_nil _, rfl⟩

/-- C7 half a second after a start click (timers 0.4 and 1.2): the coin timer
fires and is reset into [0.25, 0.65], the hazard timer only counts down. -/
theorem C7_spawn_timers_witness :
    (0 ≤ zeroDraws.coinT ∧ zeroDraws.coinT < 1) ∧
    (0 ≤ zeroDraws.hazT ∧ zeroDraws.hazT < 1) ∧
    (0.25 ≤ (update hypotZero (1 / 2) zeroDraws (worldWithKeys [])).state.spawn.coinIn ∧
      (update hypotZero (1 / 2) zeroDraws (worldWithKeys [])).state.spawn.coinIn ≤ 0.65) ∧
    (update hypotZero (1 / 2) zeroDraws (worldWithKeys [])).state.spawn.hazardIn =
      (worldWithKeys [] : World ℚ).state.spawn.hazardIn - 1 / 2 := by
  have h0 : (0 ≤ zeroDraws.coinT ∧ zeroDraws.coinT < 1) := by norm_num [zeroDraws]
  have h1 : (0 ≤ zeroDraws.hazT ∧ zeroDraws.hazT < 1) := by norm_num [zeroDraws]
  have h := C7_spawn_timers hypotZero (1 / 2) zeroDraws (worldWithKeys []) h0 h1
  have hs : (worldWithKeys [] : World ℚ).state.spawn = { coinIn := 0.4, hazardIn := 1.2 } := by
    simp [worldWithKeys, run, step, startClick, reset, syncHud, initial]
  refine ⟨h0, h1, (h.1 (by rw [hs]; norm_num)).2, (h.2.2.2 (by rw [hs]; norm_num)).2⟩

/-- C8 (game over halts the pipeline). With one life left and a hazard that
overlaps the moved player at the collision check, `update` sets `lives` to 0
and `running` to false; while `running` is false the frame callback returns
the whole module state unchanged, including the count of requested frames;
a start click sets `running` again. -/
theorem C8_game_over_halts :
    (∀ (hypot : K → K → K) (dt : K) (d : Draws K) (w : World K),
      w.state.lives = 1 →
      (∃ h ∈ (afterHazardMove hypot dt d w.state).hazards,
        hitsHazard (movePlayer hypot w.state.keys dt w.state.player) h = true) →
      (update hypot dt d w).state.lives = 0 ∧ (update hypot dt d w).state.running = false) ∧
    (∀ (hypot : K → K → K) (ts : K) (d : Draws K) (w : World K),
      w.state.running = false → loop hypot ts d w = w) ∧
    (∀ w : World K, (startClick w).state.running = true) := by
  refine ⟨?_, ?_, ?_⟩
  · intro hypot dt d w hl ⟨h, hm, hhit⟩
    obtain ⟨fp, fl, -, -, -, -, fh, -⟩ := afterCoins_frame hypot dt d w.state
    obtain ⟨-, -, -, -, g5, g6⟩ := hazardLoop_full
      (movePlayer hypot w.state.keys dt w.state.player).circle
      (afterHazardMove hypot dt d w.state).hazards w.state.lives (by omega)
    have hk : 0 < (afterHazardMove hypot dt d w.state).hazards.countP
        (fun h => circleHit (movePlayer hypot w.state.keys dt w.state.player).circle
          h.circle) :=
      List.countP_pos_iff.mpr ⟨h, hm, hhit⟩
    rw [update_state]
    simp only [fp, fl, fh]
    constructor
    · rw [g5, hl]
      simp only [max_def]
      split_ifs <;> omega
    · have : (hazardLoop (movePlayer hypot w.state.keys dt w.state.player).circle
          (afterHazardMove hypot dt d w.state).hazards.length
          (afterHazardMove hypot dt d w.state).hazards w.state.lives).2.2 = true :=
        g6.mpr (by omega)
      simp [this]
  · intro hypot ts d w hr
    rw [loop_eq, hr]
    simp
  · intro w
    simp [startClick]

/-- C8 on `fatalWorld` (one life, overlapping hazards after the frame): the
frame ends the game, and a later frame callback changes nothing. -/
theorem C8_game_over_halts_witness :
    (update hypotZero (1 / 32) zeroDraws fatalWorld).state.lives = 0 ∧
    (update hypotZero (1 / 32) zeroDraws fatalWorld).state.running = false ∧
    loop hypotZero 2000 zeroDraws (update hypotZero (1 / 32) zeroDraws fatalWorld) =
      update hypotZero (1 / 32) zeroDraws fatalWorld := by
  have h := (@C8_game_over_halts ℚ _).1 hypotZero (1 / 32) zeroDraws fatalWorld rfl
    ⟨{ type := HazardType.bomb, x := 100, y := 100, r := 18, vx := -320 }, by
      norm_num [fatalWorld, hazardWorld, hypotZero, zeroDraws, afterHazardMove, afterSpawn,
        afterMove, spawns, moveHazards, moveHazard, List.filter_cons], by
      norm_num [fatalWorld, hazardWorld, hypotZero, movePlayer, inputDir, leftHeld, rightHeld,
        upHeld, downHeld, clamp, hitsHazard, circleHit, Player.circle, Hazard.circle]⟩
  exact ⟨h.1, h.2, (@C8_game_over_halts ℚ _).2.1 hypotZero 2000 zeroDraws _ h.2⟩

/-- C9 (start and reset). From every state a start click gives `running`,
score 0, three lives, no coins and no hazards, the player at (120, 270) with
zero velocity, spawn timers 0.4 and 1.2 and `tPrev = 0`; `best`, the held keys
and the player's radius and speed are unchanged; `reset` applied twice equals
`reset` applied once. -/
theorem C9_start_reset (w : World K) :
    (startClick w).state.running = true ∧
    (startClick w).state.score = 0 ∧
    (startClick w).state.lives = 3 ∧
    (startClick w).state.coins = [] ∧
    (startClick w).state.hazards = [] ∧
    (startClick w).state.player.x = 120 ∧
    (startClick w).state.player.y = 270 ∧
    (startClick w).state.player.vx = 0 ∧
    (startClick w).state.player.vy = 0 ∧
    (startClick w).state.spawn.coinIn = 0.4 ∧
    (startClick w).state.spawn.hazardIn = 1.2 ∧
    (startClick w).state.tPrev = 0 ∧
    (startClick w).state.best = w.state.best ∧
    (startClick w).state.keys = w.state.keys ∧
    (startClick w).state.player.r = w.state.player.r ∧
    (startClick w).state.player.speed = w.state.player.speed ∧
    reset (reset w) = reset w := by
  simp [startClick, reset, syncHud]

/-- Every hazard left by `update` lies right of the left bound. -/
theorem update_hazards_right (hypot : K → K → K) (dt : K) (d : Draws K) (w : World K) :
    ∀ h ∈ (update hypot dt d w).state.hazards, h.x > -40 := by
  intro h hm
  have hs := (update_hazards hypot dt d w).1.subset hm
  rw [moveHazards, List.mem_filter] at hs
  simpa using hs.2

/-- C10 as amended (hazard expiry). In `update` a hazard is removed for leaving
the left bound exactly when its `x` after this frame's movement is `≤ -40`:
every hazard left by the call has `x > -40`, a hazard whose `x` after movement
is `≤ -40` is not left (so a hazard at `x = -41` is removed when `dt = 0`), and
a hazard whose `x` after movement is `> -40` and that does not collide with
the player is still in the collection. -/
theorem C10_hazard_expiry (hypot : K → K → K) (dt : K) (d : Draws K) (w : World K) :
    (∀ h ∈ (update hypot dt d w).state.hazards, h.x > -40) ∧
    (∀ h ∈ (afterSpawn hypot dt d w.state).hazards, (moveHazard dt h).x ≤ -40 →
      moveHazard dt h ∉ (update hypot dt d w).state.hazards) ∧
    (∀ h : Hazard K, h.x = -41 → h ∉ (update hypot 0 d w).state.hazards) ∧
    (∀ h ∈ (afterSpawn hypot dt d w.state).hazards, (moveHazard dt h).x > -40 →
      hitsHazard (movePlayer hypot w.state.keys dt w.state.player) (moveHazard dt h) = false →
      moveHazard dt h ∈ (update hypot dt d w).state.hazards) := by
  refine ⟨update_hazards_right hypot dt d w, ?_, ?_, ?_⟩
  · intro h _ hx hm
    exact absurd (update_hazards_right hypot dt d w _ hm) (not_lt.mpr hx)
  · intro h hx hm
    have := update_hazards_right hypot 0 d w h hm
    rw [hx] at this
    norm_num at this
  · intro h hm hx hno
    have hf : moveHazard dt h ∈
        ((moveHazards dt (afterSpawn hypot dt d w.state).hazards).filter
          fun h => !hitsHazard (movePlayer hypot w.state.keys dt w.state.player) h) := by
      rw [List.mem_filter, moveHazards, List.mem_filter]
      exact ⟨⟨List.mem_map.mpr ⟨h, hm, rfl⟩, by simpa using hx⟩, by simp [hno]⟩
    rw [← (update_hazards hypot dt d w).2] at hf
    exact (List.mem_filter.mp hf).1

/-- C10 as stated fails at the boundary: in `boundaryWorld` a frame of
`dt = 1/32` moves `boundaryBomb` to `x = -40`, which is `≥ -40`, it does not
collide with the player, and yet `update` removes it (no hazard is left). -/
theorem C10_counterexample :
    boundaryBomb ∈ (afterSpawn hypotZero (1 / 32) zeroDraws boundaryWorld.state).hazards ∧
    (moveHazard (1 / 32) boundaryBomb).x = -40 ∧
    (moveHazard (1 / 32) boundaryBomb).x ≥ -40 ∧
    hitsHazard (movePlayer hypotZero boundaryWorld.state.keys (1 / 32)
      boundaryWorld.state.player) (moveHazard (1 / 32) boundaryBomb) = false ∧
    moveHazard (1 / 32) boundaryBomb ∉
      (update hypotZero (1 / 32) zeroDraws boundaryWorld).state.hazards ∧
    (update hypotZero (1 / 32) zeroDraws boundaryWorld).state.hazards = [] := by
  have hx : (moveHazard (1 / 32) boundaryBomb).x = -40 := by
    norm_num [moveHazard, boundaryBomb]
  have hnil : (update hypotZero (1 / 32) zeroDraws boundaryWorld).state.hazards = [] := by
    have hs := (update_hazards hypotZero (1 / 32) zeroDraws boundaryWorld).1
    have he : moveHazards (1 / 32)
        (afterSpawn hypotZero (1 / 32) zeroDraws boundaryWorld.state).hazards = [] := by
      norm_num [boundaryWorld, boundaryBomb, zeroDraws, afterSpawn, afterMove, spawns,
        moveHazards, moveHazard, List.filter_cons]
    rw [he] at hs
    exact List.sublist_nil.mp hs
  refine ⟨?_, hx, by rw [hx], ?_, by rw [hnil]; simp, hnil⟩
  · norm_num [boundaryWorld, zeroDraws, afterSpawn, afterMove, spawns]
  · norm_num [boundaryWorld, boundaryBomb, hypotZero, movePlayer, inputDir, leftHeld,
      rightHeld, upHeld, downHeld, clamp, moveHazard, hitsHazard, circleHit, Player.circle,
      Hazard.circle]

theorem update_tPrev (hypot : K → K → K) (dt : K) (d : Draws K) (w : World K) :
    (update hypot dt d w).state.tPrev = w.state.tPrev := by
  rw [update_state]
  exact (afterCoins_frame hypot dt d w.state).2.2.2.2.2.1

/-- The delta `loop` computes: never above 0.033, the clamped wall-clock delta
when `tPrev` is non-zero, and 0 when `tPrev` is 0. -/
theorem frameDt_facts (ts tPrev : K) :
    frameDt ts tPrev ≤ 0.033 ∧
    (tPrev ≠ 0 → frameDt ts tPrev = min 0.033 (ts / 1000 - tPrev)) ∧
    (tPrev = 0 → frameDt ts tPrev = 0) ∧
    (tPrev ≤ ts / 1000 → 0 ≤ frameDt ts tPrev) := by
  unfold frameDt
  refine ⟨min_le_left _ _, ?_, ?_, ?_⟩
  · intro h
    simp [h]
  · intro h
    simp [h]
    norm_num
  · intro h
    by_cases h0 : tPrev = 0
    · simp [h0]
      norm_num
    · simp only [if_neg h0]
      exact le_min (by norm_num) (by linarith)

theorem trackFold_fst (hypot : K → K → K) (es : List (Event K)) :
    ∀ p : World K × Option K, (es.foldl (trackStep hypot) p).1 = run hypot p.1 es := by
  induction es with
  | nil => intro p; rfl
  | cons e es ih => intro p; exact ih (trackStep hypot p e)

theorem step_tPrev_of_not_frame (hypot : K → K → K) (w : World K) (e : Event K)
    (hs : e ≠ Event.start) (hf : ∀ ts d, e ≠ Event.frame ts d) :
    (step hypot w e).state.tPrev = w.state.tPrev := by
  cases e with
  | start => exact absurd rfl hs
  | frame ts d => exact absurd rfl (hf ts d)
  | keydown key => rfl
  | keyup key => rfl
  | pointerdown => rfl
  | pointerup => rfl
  | pointermove cx cy rect =>
    simp only [step, pointermove]
    cases w.dragging <;> simp

/-- One event keeps `state.tPrev` in step with the previous frame of the
session: 0 when there is none, its timestamp in seconds otherwise. -/
theorem trackStep_inv (hypot : K → K → K) (p : World K × Option K) (e : Event K)
    (h : TrackInv p) (hts : ∀ ts d, e = Event.frame ts d → ts ≠ 0) :
    TrackInv (trackStep hypot p e) := by
  cases e with
  | start => simp [TrackInv, trackStep, step, startClick]
  | frame ts d =>
    by_cases hrun : p.1.state.running = true
    · have hl := loop_eq hypot ts d p.1
      rw [if_pos hrun] at hl
      have ht : (loop hypot ts d p.1).state.tPrev = ts / 1000 := by
        rw [hl]
        exact update_tPrev hypot _ d _
      have h0 : ts ≠ 0 := hts ts d rfl
      simp only [TrackInv, trackStep, step, hrun, if_true]
      exact ⟨h0, ht⟩
    · have hl := loop_eq hypot ts d p.1
      rw [if_neg hrun] at hl
      simp only [TrackInv, trackStep, step, hrun, hl]
      exact h
  | keydown key => exact h
  | keyup key => exact h
  | pointerdown => exact h
  | pointerup => exact h
  | pointermove cx cy rect =>
    have ht := step_tPrev_of_not_frame hypot p.1 (Event.pointermove cx cy rect)
      (by simp) (by simp)
    simp only [TrackInv, trackStep] at h ⊢
    rw [ht]
    exact h

theorem trackFold_inv (hypot : K → K → K) (es : List (Event K)) :
    ∀ p : World K × Option K, TrackInv p → FrameTimestampsNonzero es →
      TrackInv (es.foldl (trackStep hypot) p) := by
  induction es with
  | nil => intro p h _; exact h
  | cons e es ih =>
    intro p h hts
    refine ih (trackStep hypot p e)
      (trackStep_inv hypot p e h (fun ts d he => hts ts d (by rw [he]; simp)))
      (fun ts d hm => hts ts d (List.mem_cons_of_mem _ hm))

/-- After events whose frame timestamps are non-zero, `state.tPrev` is 0 when
the session has no previous frame and is that frame's timestamp in seconds,
which is not 0, when it has one. -/
theorem tPrev_of_previousFrame (hypot : K → K → K) (ui : Ui) (es : List (Event K))
    (hts : FrameTimestampsNonzero es) :
    (previousFrame hypot (initial ui) es = none →
      (run hypot (initial ui) es).state.tPrev = 0) ∧
    (∀ tp, previousFrame hypot (initial ui) es = some tp →
      tp ≠ 0 ∧ (run hypot (initial ui) es).state.tPrev = tp / 1000) := by
  have hinv := trackFold_inv hypot es (initial ui, none) (by simp [TrackInv, initial]) hts
  have hfst := trackFold_fst hypot es (initial ui, none)
  simp only [TrackInv, hfst] at hinv
  constructor
  · intro hn
    simp only [previousFrame] at hn
    rw [hn] at hinv
    exact hinv
  · intro tp hs
    simp only [previousFrame] at hs
    rw [hs] at hinv
    exact hinv

/-- C11 (delta-time clamp). After any events whose frame timestamps are
non-zero, for a frame callback `loop(ts)` made while running: `update` is
called with `dt = frameDt ts tPrev`, that frame becomes the previous frame and
`tPrev` its timestamp in seconds; `dt ≤ 0.033`; when a previous frame of the
session exists with timestamp `tp`, `dt = min 0.033 (ts/1000 - tp/1000)`
exactly, with no minimum clamp; when none exists, as on the first frame after
a start click, `dt = 0`; and when the timestamps do not decrease,
`0 ≤ dt ≤ 0.033`. -/
theorem C11_delta_time_clamp (hypot : K → K → K) (ui : Ui) (es : List (Event K)) (ts : K)
    (d : Draws K) (hts : FrameTimestampsNonzero es)
    (hrun : (run hypot (initial ui) es).state.running = true) :
    loop hypot ts d (run hypot (initial ui) es) =
      { update hypot (frameDt ts (run hypot (initial ui) es).state.tPrev) d
          { run hypot (initial ui) es with
            state := { (run hypot (initial ui) es).state with tPrev := ts / 1000 } } with
        rafRequests := (update hypot (frameDt ts (run hypot (initial ui) es).state.tPrev) d
          { run hypot (initial ui) es with
            state := { (run hypot (initial ui) es).state with tPrev := ts / 1000 } }
          ).rafRequests + 1 } ∧
    previousFrame hypot (initial ui) (es ++ [Event.frame ts d]) = some ts ∧
    (run hypot (initial ui) (es ++ [Event.frame ts d])).state.tPrev = ts / 1000 ∧
    frameDt ts (run hypot (initial ui) es).state.tPrev ≤ 0.033 ∧
    (∀ tp, previousFrame hypot (initial ui) es = some tp →
      frameDt ts (run hypot (initial ui) es).state.tPrev =
        min 0.033 (ts / 1000 - tp / 1000)) ∧
    (previousFrame hypot (initial ui) es = none →
      frameDt ts (run hypot (initial ui) es).state.tPrev = 0) ∧
    (previousFrame hypot (initial ui) (es ++ [Event.start]) = none ∧
      frameDt ts (run hypot (initial ui) (es ++ [Event.start])).state.tPrev = 0) ∧
    ((∀ tp, previousFrame hypot (initial ui) es = some tp → tp ≤ ts) →
      0 ≤ frameDt ts (run hypot (initial ui) es).state.tPrev ∧
      frameDt ts (run hypot (initial ui) es).state.tPrev ≤ 0.033) := by
  obtain ⟨f1, f2, f3, f4⟩ := frameDt_facts ts (run hypot (initial ui) es).state.tPrev
  obtain ⟨hnone, hsome⟩ := tPrev_of_previousFrame hypot ui es hts
  have hl := loop_eq hypot ts d (run hypot (initial ui) es)
  rw [if_pos hrun] at hl
  have hfst := trackFold_fst hypot es (initial ui, none)
  refine ⟨hl, ?_, ?_, f1, ?_, fun hn => f3 (hnone hn), ⟨?_, ?_⟩, ?_⟩
  · simp only [previousFrame, List.foldl_append, List.foldl_cons, List.foldl_nil, trackStep,
      hfst, hrun, if_true]
  · simp only [run, List.foldl_append, List.foldl_cons, List.foldl_nil, step]
    have ht : (loop hypot ts d (run hypot (initial ui) es)).state.tPrev = ts / 1000 := by
      rw [hl]
      exact update_tPrev hypot _ d _
    exact ht
  · intro tp hp
    obtain ⟨h0, ht⟩ := hsome tp hp
    have hne : (run hypot (initial ui) es).state.tPrev ≠ 0 := by
      rw [ht]
      exact div_ne_zero h0 (by norm_num)
    rw [f2 hne, ht]
  · simp only [previousFrame, List.foldl_append, List.foldl_cons, List.foldl_nil, trackStep]
  · have : (run hypot (initial ui) (es ++ [Event.start])).state.tPrev = 0 := by
      simp [run, List.foldl_append, step, startClick]
    exact (frameDt_facts ts _).2.2.1 this
  · intro hmono
    refine ⟨?_, f1⟩
    cases hp : previousFrame hypot (initial ui) es with
    | none => rw [f3 (hnone hp)]
    | some tp =>
      obtain ⟨-, ht⟩ := hsome tp hp
      refine f4 ?_
      rw [ht]
      exact div_le_div_of_nonneg_right (hmono tp hp) (by norm_num)

/-- The first frame after a start click does not end the game: its `dt` is 0
and there is no hazard yet. -/
theorem first_frame_running (ts : ℚ) :
    (run hypotZero (initial ⟨"0", "3", "—", true⟩)
      [Event.start, Event.frame ts zeroDraws]).state.running = true := by
  have hr : (startClick (initial ⟨"0", "3", "—", true⟩ : World ℚ)).state.running = true := by
    simp [startClick]
  have hl := loop_eq hypotZero ts zeroDraws (startClick (initial ⟨"0", "3", "—", true⟩))
  rw [if_pos hr] at hl
  simp only [run, List.foldl_cons, List.foldl_nil, step]
  rw [hl, update_state]
  simp only [(afterCoins_frame hypotZero _ zeroDraws _).2.2.1,
    (afterCoins_frame hypotZero _ zeroDraws _).2.1,
    (afterCoins_frame hypotZero _ zeroDraws _).2.2.2.2.2.2.1]
  norm_num [startClick, reset, syncHud, initial, frameDt,
    afterHazardMove, afterSpawn, afterMove, spawns, moveHazards, hazardLoop]

/-- C11 on a start click and a frame at 16 ms: the game is running, the
previous frame is the one at 16 ms, and a frame at 32 ms gets
`dt = min 0.033 (32/1000 - 16/1000) = 0.016`. -/
theorem C11_delta_time_clamp_witness :
    FrameTimestampsNonzero [Event.start, Event.frame (16 : ℚ) zeroDraws] ∧
    (run hypotZero (initial ⟨"0", "3", "—", true⟩)
      [Event.start, Event.frame 16 zeroDraws]).state.running = true ∧
    previousFrame hypotZero (initial ⟨"0", "3", "—", true⟩)
      [Event.start, Event.frame 16 zeroDraws] = some 16 ∧
    frameDt 32 (run hypotZero (initial ⟨"0", "3", "—", true⟩)
      [Event.start, Event.frame 16 zeroDraws]).state.tPrev = 16 / 1000 := by
  have hts : FrameTimestampsNonzero [Event.start, Event.frame (16 : ℚ) zeroDraws] := by
    intro ts d hm
    simp only [List.mem_cons, List.mem_singleton, List.not_mem_nil, or_false] at hm
    rcases hm with hm | hm
    · cases hm
    · cases hm
      norm_num
  have hrun := first_frame_running 16
  have hp : previousFrame hypotZero (initial ⟨"0", "3", "—", true⟩)
      [Event.start, Event.frame (16 : ℚ) zeroDraws] = some 16 := by
    simp [previousFrame, trackStep, step, startClick]
  have h := C11_delta_time_clamp hypotZero ⟨"0", "3", "—", true⟩
    [Event.start, Event.frame 16 zeroDraws] 32 zeroDraws hts hrun
  refine ⟨hts, hrun, hp, ?_⟩
  rw [h.2.2.2.2.1 16 hp]
  norm_num

/-- Outside the timestamps a browser delivers: a frame at `ts = 0` stores
`tPrev = 0`, which `loop` reads as "no previous frame", so the `dt` of the next
frame is 0. -/
theorem frame_at_zero_reads_as_none :
    (run hypotZero (initial ⟨"0", "3", "—", true⟩)
      [Event.start, Event.frame 0 zeroDraws]).state.running = true ∧
    (run hypotZero (initial ⟨"0", "3", "—", true⟩)
      [Event.start, Event.frame 0 zeroDraws]).state.tPrev = 0 ∧
    frameDt 16 (run hypotZero (initial ⟨"0", "3", "—", true⟩)
      [Event.start, Event.frame 0 zeroDraws]).state.tPrev = 0 := by
  have hrun := first_frame_running 0
  have hr : (startClick (initial ⟨"0", "3", "—", true⟩ : World ℚ)).state.running = true := by
    simp [startClick]
  have hl := loop_eq hypotZero 0 zeroDraws (startClick (initial ⟨"0", "3", "—", true⟩))
  rw [if_pos hr] at hl
  have ht : (run hypotZero (initial ⟨"0", "3", "—", true⟩)
      [Event.start, Event.frame 0 zeroDraws]).state.tPrev = 0 := by
    simp only [run, List.foldl_cons, List.foldl_nil, step]
    rw [hl, update_tPrev]
    norm_num
  exact ⟨hrun, ht, (frameDt_facts 16 _).2.2.1 ht⟩

/-- C12 (collision symmetry). For all circles `a` and `b`,
`circleHit a b = circleHit b a`. -/
theorem C12_circleHit_symm (a b : Circle K) : circleHit a b = circleHit b a := by
  unfold circleHit
  have h1 : (a.x - b.x) * (a.x - b.x) + (a.y - b.y) * (a.y - b.y) =
      (b.x - a.x) * (b.x - a.x) + (b.y - a.y) * (b.y - a.y) := by ring
  have h2 : (a.r + b.r) * (a.r + b.r) = (b.r + a.r) * (b.r + a.r) := by ring
  simp only [h1, h2]

/-- C13 (collision test). `circleHit a b` holds exactly when the squared
distance between the centres is at most `(a.r + b.r)^2`. For non-negative
radii and `dist` the Euclidean distance between the centres (`dist ≥ 0` and
`dist^2` the squared distance) this is `dist ≤ a.r + b.r`; the boundary is
inclusive, so tangent circles collide. -/
theorem C13_circleHit_iff (a b : Circle K) (dist : K) (ha : 0 ≤ a.r) (hb : 0 ≤ b.r)
    (hd : 0 ≤ dist) (hdist : dist ^ 2 = (a.x - b.x) ^ 2 + (a.y - b.y) ^ 2) :
    (circleHit a b = true ↔ (a.x - b.x) ^ 2 + (a.y - b.y) ^ 2 ≤ (a.r + b.r) ^ 2) ∧
    (circleHit a b = true ↔ dist ≤ a.r + b.r) ∧
    (dist = a.r + b.r → circleHit a b = true) := by
  have h1 : circleHit a b = true ↔ (a.x - b.x) ^ 2 + (a.y - b.y) ^ 2 ≤ (a.r + b.r) ^ 2 := by
    simp only [circleHit, decide_eq_true_eq, pow_two]
  have h2 : circleHit a b = true ↔ dist ≤ a.r + b.r := by
    rw [h1, ← hdist]
    exact pow_le_pow_iff_left₀ hd (add_nonneg ha hb) (by norm_num)
  exact ⟨h1, h2, fun h => h2.mpr (le_of_eq h)⟩

/-- C13 on two tangent circles: centres (0,0) and (3,4), radii 2 and 3,
distance 5. -/
theorem C13_circleHit_iff_witness :
    circleHit (⟨0, 0, 2⟩ : Circle ℚ) ⟨3, 4, 3⟩ = true :=
  (C13_circleHit_iff (⟨0, 0, 2⟩ : Circle ℚ) ⟨3, 4, 3⟩ 5 (by norm_num) (by norm_num)
    (by norm_num) (by norm_num)).2.2 (by norm_num)

/-- Lives and the game-over flag of the hazard loop do not change when hazards
that do not hit are dropped from the array beforehand. -/
theorem hazardLoop_filter (p : Circle K) (keep : Hazard K → Bool) (a : List (Hazard K))
    (hk : ∀ h ∈ a, circleHit p h.circle = true → keep h = true) :
    ∀ (b b' : List (Hazard K)) (L : Int),
      (hazardLoop p (a.filter keep).length (a.filter keep ++ b') L).2 =
        (hazardLoop p a.length (a ++ b) L).2 := by
  induction a using List.reverseRecOn with
  | nil => intro b b' L; simp [hazardLoop]
  | append_singleton a h ih =>
    intro b b' L
    have ih := ih (fun x hx => hk x (List.mem_append_left _ hx))
    have hget : (a ++ [h] ++ b)[a.length]? = some h := by
      rw [List.append_assoc, List.getElem?_append_right (le_refl _)]; simp
    have herase : (a ++ [h] ++ b).eraseIdx a.length = a ++ b := by
      rw [List.append_assoc, List.eraseIdx_append_of_length_le (le_refl _)]
      simp
    have hget' : (a.filter keep ++ [h] ++ b')[(a.filter keep).length]? = some h := by
      rw [List.append_assoc, List.getElem?_append_right (le_refl _)]; simp
    have herase' : (a.filter keep ++ [h] ++ b').eraseIdx (a.filter keep).length =
        a.filter keep ++ b' := by
      rw [List.append_assoc, List.eraseIdx_append_of_length_le (le_refl _)]
      simp
    rw [List.length_append, List.length_singleton, hazardLoop, hget]
    by_cases hc : circleHit p h.circle = true
    · have hkeep : keep h = true := hk h (by simp) hc
      have hf : (a ++ [h]).filter keep = a.filter keep ++ [h] := by
        simp [List.filter_append, hkeep]
      rw [hf, List.length_append, List.length_singleton, hazardLoop, hget']
      simp only [hc, if_true, herase, herase']
      by_cases h1 : L - 1 ≤ 0
      · simp only [h1, if_true]
      · simp only [h1, if_false]
        exact ih b b' (L - 1)
    · simp only [hc, Bool.false_eq_true, if_false]
      by_cases hkeep : keep h = true
      · have hf : (a ++ [h]).filter keep = a.filter keep ++ [h] := by
          simp [List.filter_append, hkeep]
        rw [hf, List.length_append, List.length_singleton, hazardLoop, hget']
        simp only [hc, Bool.false_eq_true, if_false]
        rw [List.append_assoc, List.append_assoc]
        exact ih ([h] ++ b) ([h] ++ b') L
      · have hf : (a ++ [h]).filter keep = a.filter keep := by
          simp [List.filter_append, hkeep]
        rw [hf, List.append_assoc]
        exact ih ([h] ++ b) b' L

/-- A hazard of radius 14 or 18 at or left of `x = -40` does not hit a player of
radius 22 that is inside the bounds. -/
theorem offscreen_no_hit (p : Player K) (h : Hazard K) (hr : p.r = 22) (hb : InBounds p)
    (hh : h.r = 14 ∨ h.r = 18) (hx : h.x ≤ -40) : hitsHazard p h = false := by
  obtain ⟨b1, -, -, -⟩ := hb
  rw [hr] at b1
  simp only [hitsHazard, circleHit, Player.circle, Hazard.circle, decide_eq_false_iff_not,
    not_le, hr]
  have hy := mul_self_nonneg (p.y - h.y)
  rcases hh with h14 | h18
  · rw [h14]
    nlinarith
  · rw [h18]
    nlinarith

/-- Score, lives and the running flag after `updateExpireLast`. -/
theorem updateExpireLast_session (hypot : K → K → K) (dt : K) (d : Draws K) (w : World K) :
    (updateExpireLast hypot dt d w).state.score =
      (coinLoop (movePlayer hypot w.state.keys dt w.state.player).circle
        (afterSpawn hypot dt d w.state).coins.length (afterSpawn hypot dt d w.state).coins
        w.state.score).2 ∧
    (updateExpireLast hypot dt d w).state.lives =
      (hazardLoop (movePlayer hypot w.state.keys dt w.state.player).circle
        ((afterSpawn hypot dt d w.state).hazards.map (moveHazard dt)).length
        ((afterSpawn hypot dt d w.state).hazards.map (moveHazard dt)) w.state.lives).2.1 ∧
    (updateExpireLast hypot dt d w).state.running =
      (w.state.running &&
        !(hazardLoop (movePlayer hypot w.state.keys dt w.state.player).circle
          ((afterSpawn hypot dt d w.state).hazards.map (moveHazard dt)).length
          ((afterSpawn hypot dt d w.state).hazards.map (moveHazard dt)) w.state.lives).2.2) := by
  obtain ⟨sp, ss, sl, sr, -, -, -⟩ := spawns_frame dt d (afterMove hypot dt w.state)
  have hp : (afterSpawn hypot dt d w.state).player =
      movePlayer hypot w.state.keys dt w.state.player := by
    rw [afterSpawn, sp]; rfl
  have hs : (afterSpawn hypot dt d w.state).score = w.state.score := by
    rw [afterSpawn, ss]; rfl
  have hl : (afterSpawn hypot dt d w.state).lives = w.state.lives := by
    rw [afterSpawn, sl]; rfl
  have hr : (afterSpawn hypot dt d w.state).running = w.state.running := by
    rw [afterSpawn, sr]; rfl
  unfold updateExpireLast
  dsimp only
  rw [hp, hs, hl, hr]
  split_ifs with h
  · simp only [List.length_map] at h
    simp [gameOver, h]
  · simp only [List.length_map] at h
    simp [syncHud, h]

/-- C17 (off-screen hazards cannot collide). A hazard of radius 14 or 18 with
`x ≤ -40` does not collide with a player of radius 22 inside the bounds; hence,
for a player of radius 22 and hazards of radius 14 or 18, removing the expired
hazards before the collision loops (`update`) or after them
(`updateExpireLast`) gives the same score, lives and running flag. -/
theorem C17_offscreen_no_collision :
    (∀ (p : Player K) (h : Hazard K), p.r = 22 → InBounds p → (h.r = 14 ∨ h.r = 18) →
      h.x ≤ -40 → circleHit p.circle h.circle = false) ∧
    (∀ (hypot : K → K → K) (dt : K) (d : Draws K) (w : World K),
      w.state.player.r = 22 → (∀ h ∈ w.state.hazards, h.r = 14 ∨ h.r = 18) →
      (update hypot dt d w).state.score = (updateExpireLast hypot dt d w).state.score ∧
      (update hypot dt d w).state.lives = (updateExpireLast hypot dt d w).state.lives ∧
      (update hypot dt d w).state.running =
        (updateExpireLast hypot dt d w).state.running) := by
  refine ⟨fun p h hr hb hh hx => offscreen_no_hit p h hr hb hh hx, ?_⟩
  intro hypot dt d w hr hrad
  obtain ⟨e1, e2, e3⟩ := updateExpireLast_session hypot dt d w
  obtain ⟨fp, fl, fr, -, -, -, fh, -⟩ := afterCoins_frame hypot dt d w.state
  obtain ⟨gp, gs, gc, gh⟩ := afterHazardMove_frame hypot dt d w.state
  have hpr : (movePlayer hypot w.state.keys dt w.state.player).r = 22 :=
    (movePlayer_r hypot _ _ _).1.trans hr
  have hpb := movePlayer_inBounds hypot w.state.keys dt w.state.player hr
  have hrad' : ∀ h ∈ (afterSpawn hypot dt d w.state).hazards.map (moveHazard dt),
      h.r = 14 ∨ h.r = 18 := by
    intro h hm
    obtain ⟨h0, hm0, rfl⟩ := List.mem_map.mp hm
    rw [(afterSpawn_eq hypot dt d w.state).2.1, List.mem_append] at hm0
    rcases hm0 with hm0 | hm0
    · exact hrad h0 hm0
    · split_ifs at hm0 with hc
      · rw [List.mem_singleton] at hm0
        rw [hm0]
        simp only [moveHazard, newHazard]
        split_ifs <;> simp
      · simp at hm0
  have hloop := hazardLoop_filter
    (movePlayer hypot w.state.keys dt w.state.player).circle
    (fun h => decide (h.x > -40))
    ((afterSpawn hypot dt d w.state).hazards.map (moveHazard dt))
    (fun h hm hhit => by
      by_contra hk
      have hx : h.x ≤ -40 := by simpa using hk
      have := offscreen_no_hit _ h hpr hpb (hrad' h hm) hx
      rw [hitsHazard, hhit] at this
      exact Bool.noConfusion this) [] [] w.state.lives
  simp only [List.append_nil] at hloop
  refine ⟨?_, ?_, ?_⟩
  · rw [e1, update_state]
    simp only [afterCoins, gp, gs, gc]
  · rw [e2, update_state]
    simp only [fp, fl, fh, gh, moveHazards, hloop]
  · rw [e3, update_state]
    simp only [fp, fl, fr, fh, gh, moveHazards, hloop]

/-- C17 on `boundaryWorld`: the bomb moved to `x = -40` does not hit the
player. -/
theorem C17_offscreen_no_collision_witness :
    circleHit boundaryWorld.state.player.circle (moveHazard (1 / 32) boundaryBomb).circle =
      false :=
  (@C17_offscreen_no_collision ℚ _).1 boundaryWorld.state.player
    (moveHazard (1 / 32) boundaryBomb) rfl (by norm_num [InBounds, boundaryWorld])
    (Or.inr rfl) (by norm_num [moveHazard, boundaryBomb])

theorem newCoin_wf (d : Draws K) (hd : DrawsInRange d) : CoinWF (newCoin d) := by
  obtain ⟨hx, hy, -, -, -, -⟩ := hd
  have bx := rand_bounds (220 : K) 920 d.coinX (by norm_num) hx.1 hx.2
  have bY := rand_bounds (60 : K) 480 d.coinY (by norm_num) hy.1 hy.2
  exact ⟨rfl, bx.1, bx.2, bY.1, bY.2⟩

theorem newHazard_wf (d : Draws K) (hd : DrawsInRange d) :
    HazardWF (newHazard d) ∧ (newHazard d).x = 980 := by
  obtain ⟨-, -, -, -, hy, -⟩ := hd
  have bY := rand_bounds (70 : K) 470 d.hazY (by norm_num) hy.1 hy.2
  refine ⟨⟨?_, bY.1, bY.2⟩, rfl⟩
  by_cases ht : d.hazType < 0.5 <;> simp [newHazard, ht]

theorem moveHazard_wf (dt : K) (h : Hazard K) (hw : HazardWF h) :
    HazardWF (moveHazard dt h) := hw

/-- One `update` call keeps the coins and hazards well formed and leaves every
hazard right of the left bound. -/
theorem update_wf (hypot : K → K → K) (dt : K) (d : Draws K) (w : World K)
    (hd : DrawsInRange d) (hc : ∀ c ∈ w.state.coins, CoinWF c)
    (hh : ∀ h ∈ w.state.hazards, HazardWF h) :
    (∀ c ∈ (update hypot dt d w).state.coins, CoinWF c) ∧
    (∀ h ∈ (update hypot dt d w).state.hazards, HazardWF h) ∧
    (∀ h ∈ (update hypot dt d w).state.hazards, h.x > -40) := by
  obtain ⟨sc, sh, -, -⟩ := afterSpawn_eq hypot dt d w.state
  refine ⟨?_, ?_, update_hazards_right hypot dt d w⟩
  · intro c hm
    rw [(update_coins_score hypot dt d w).1, sc] at hm
    have hm' := (List.mem_filter.mp hm).1
    rw [List.mem_append] at hm'
    rcases hm' with h1 | h1
    · exact hc c h1
    · split_ifs at h1
      · rw [List.mem_singleton] at h1
        rw [h1]
        exact newCoin_wf d hd
      · simp at h1
  · intro h hm
    have hs := (update_hazards hypot dt d w).1.subset hm
    rw [moveHazards, sh] at hs
    obtain ⟨h0, hm0, rfl⟩ := List.mem_map.mp (List.mem_filter.mp hs).1
    rw [List.mem_append] at hm0
    rcases hm0 with h1 | h1
    · exact moveHazard_wf dt h0 (hh h0 h1)
    · split_ifs at h1
      · rw [List.mem_singleton] at h1
        rw [h1]
        exact moveHazard_wf dt _ (newHazard_wf d hd).1
      · simp at h1

theorem runUpdates_wf (hypot : K → K → K) (fs : List (K × Draws K)) :
    ∀ w : World K, (∀ f ∈ fs, DrawsInRange f.2) →
      ((∀ c ∈ w.state.coins, CoinWF c) ∧ (∀ h ∈ w.state.hazards, HazardWF h) ∧
        (∀ h ∈ w.state.hazards, h.x > -40)) →
      (∀ c ∈ (runUpdates hypot w fs).state.coins, CoinWF c) ∧
      (∀ h ∈ (runUpdates hypot w fs).state.hazards, HazardWF h) ∧
      (∀ h ∈ (runUpdates hypot w fs).state.hazards, h.x > -40) := by
  induction fs with
  | nil => intro w _ h; exact h
  | cons f fs ih =>
    intro w hd h
    exact ih (update hypot f.1 f.2 w)
      (fun g hg => hd g (List.mem_cons_of_mem _ hg))
      (update_wf hypot f.1 f.2 w (hd f (List.mem_cons_self _ _)) h.1 h.2.1)

/-- C19 (entity well-formedness). With every draw in [0,1), after a start click
and any sequence of `update` calls every coin has `r = 12`, `220 ≤ x ≤ 920`
and `60 ≤ y ≤ 480`, and every hazard is a rocket with `r = 14`, `vx = -520` or
a bomb with `r = 18`, `vx = -320`, has `70 ≤ y ≤ 470` and has `x > -40`.
One `update` call leaves the coins it keeps unchanged (they are a sublist of
the old coins and the new coin), and the hazards it keeps are old or new
hazards moved by this frame, which changes `x` only. -/
theorem C19_entity_wellformed (hypot : K → K → K) (w : World K) (fs : List (K × Draws K))
    (hd : ∀ f ∈ fs, DrawsInRange f.2) :
    (∀ c ∈ (runUpdates hypot (startClick w) fs).state.coins, CoinWF c) ∧
    (∀ h ∈ (runUpdates hypot (startClick w) fs).state.hazards, HazardWF h) ∧
    (∀ h ∈ (runUpdates hypot (startClick w) fs).state.hazards, h.x > -40) ∧
    (∀ (dt : K) (d : Draws K) (v : World K),
      (update hypot dt d v).state.coins.Sublist (v.state.coins ++ [newCoin d]) ∧
      (update hypot dt d v).state.hazards.Sublist
        ((v.state.hazards ++ [newHazard d]).map (moveHazard dt))) ∧
    (∀ (dt : K) (h : Hazard K), (moveHazard dt h).y = h.y ∧ (moveHazard dt h).r = h.r ∧
      (moveHazard dt h).vx = h.vx ∧ (moveHazard dt h).type = h.type) := by
  have h0 := runUpdates_wf hypot fs (startClick w) hd
    (by simp [startClick, reset, syncHud])
  refine ⟨h0.1, h0.2.1, h0.2.2, ?_, fun dt h => ⟨rfl, rfl, rfl, rfl⟩⟩
  intro dt d v
  obtain ⟨sc, sh, -, -⟩ := afterSpawn_eq hypot dt d v.state
  constructor
  · rw [(update_coins_score hypot dt d v).1, sc]
    refine (List.filter_sublist _).trans ?_
    split_ifs <;> simp
  · refine (update_hazards hypot dt d v).1.trans ?_
    rw [moveHazards, sh]
    refine (List.filter_sublist _).trans ?_
    refine List.Sublist.map _ ?_
    split_ifs <;> simp

/-- C19 after a start click and two `update` calls of half a second each with
all draws 0: the hypothesis holds and the entities are well formed. -/
theorem C19_entity_wellformed_witness :
    (∀ f ∈ [((1 / 2 : ℚ), zeroDraws), (1 / 2, zeroDraws)], DrawsInRange f.2) ∧
    (∀ c ∈ (runUpdates hypotZero (startClick (worldWithKeys []))
      [(1 / 2, zeroDraws), (1 / 2, zeroDraws)]).state.coins, CoinWF c) ∧
    (∀ h ∈ (runUpdates hypotZero (startClick (worldWithKeys []))
      [(1 / 2, zeroDraws), (1 / 2, zeroDraws)]).state.hazards, HazardWF h) := by
  have hd : ∀ f ∈ [((1 / 2 : ℚ), zeroDraws), (1 / 2, zeroDraws)], DrawsInRange f.2 := by
    intro f hf
    simp only [List.mem_cons, List.mem_singleton, List.not_mem_nil, or_false, or_self] at hf
    rw [hf]
    norm_num [DrawsInRange, zeroDraws]
  have h := C19_entity_wellformed hypotZero (worldWithKeys []) _ hd
  exact ⟨hd, h.1, h.2.1⟩

/-- The specification's tick is the `// spawns` block of `update`. -/
theorem specTick_eq (dt : K) (d : Draws K) (s : State K) : specTick dt d s = spawns dt d s := by
  unfold specTick spawns spawnCoin spawnHazard
  dsimp only
  split_ifs <;> rfl

/-- The state `specResolve` returns, from the state it is given. -/
theorem specResolve_state (w : World K) :
    (specResolve w).state =
      { w.state with
        coins := (coinLoop w.state.player.circle w.state.coins.length w.state.coins
          w.state.score).1
        score := (coinLoop w.state.player.circle w.state.coins.length w.state.coins
          w.state.score).2
        hazards := (hazardLoop w.state.player.circle
          (w.state.hazards.filter (fun h => decide (h.x > -40))).length
          (w.state.hazards.filter (fun h => decide (h.x > -40))) w.state.lives).1
        lives := (hazardLoop w.state.player.circle
          (w.state.hazards.filter (fun h => decide (h.x > -40))).length
          (w.state.hazards.filter (fun h => decide (h.x > -40))) w.state.lives).2.1
        running := w.state.running && !(hazardLoop w.state.player.circle
          (w.state.hazards.filter (fun h => decide (h.x > -40))).length
          (w.state.hazards.filter (fun h => decide (h.x > -40))) w.state.lives).2.2 } := by
  unfold specResolve
  dsimp only
  split_ifs with h
  · simp [gameOver, syncHud, h]
  · simp [syncHud, h]

/-- The game state after `update` is the game state after the pipeline in the
order of the code. -/
theorem update_eq_codeOrder (hypot : K → K → K) (dt : K) (d : Draws K) (w : World K) :
    (update hypot dt d w).state = (codeOrderPipeline hypot dt d w).state := by
  rw [update_state]
  unfold codeOrderPipeline
  dsimp only
  rw [specResolve_state, specTick_eq]
  obtain ⟨sp, ss, sl, sr, sk, sb, st⟩ := spawns_frame dt d (afterMove hypot dt w.state)
  simp only [afterCoins, afterHazardMove, afterSpawn, moveHazards]
  rfl

theorem moveHazard_zero (h : Hazard K) : moveHazard 0 h = h := by
  cases h
  simp [moveHazard]

/-- The code's order and the specification's order agree when no hazard is
spawned in the call or when `dt = 0`. -/
theorem codeOrder_eq_spec (hypot : K → K → K) (dt : K) (d : Draws K) (w : World K)
    (h : ¬ w.state.spawn.hazardIn - dt ≤ 0 ∨ dt = 0) :
    codeOrderPipeline hypot dt d w = specPipeline hypot dt d w := by
  unfold codeOrderPipeline specPipeline
  dsimp only
  congr 2
  simp only [specTick, specAdvance]
  rcases h with h | h
  · simp [h]
  · subst h
    have hm : (fun h : Hazard K => moveHazard 0 h) = id := funext moveHazard_zero
    simp [moveHazard_zero, hm]

/-- C16 as amended (pipeline order). The game state after `update(dt)` is the
state after, in sequence: the player part of advance (velocity, integration,
clamp); the spawn tick; the movement of every hazard in the store, the one
spawned by this tick included; the removal of expired hazards and the coin and
hazard collisions with the game-over check. It is the state of the
specification's order (advance, tick, resolve) when no hazard is spawned in
the call or `dt = 0`. Entities spawned in the call take part in its collision
check, and a hazard spawned in the call is then at `x = 980 + vx * dt`. -/
theorem C16_pipeline_order (hypot : K → K → K) (dt : K) (d : Draws K) (w : World K) :
    (update hypot dt d w).state = (codeOrderPipeline hypot dt d w).state ∧
    ((¬ w.state.spawn.hazardIn - dt ≤ 0 ∨ dt = 0) →
      (update hypot dt d w).state = (specPipeline hypot dt d w).state) ∧
    (w.state.spawn.coinIn - dt ≤ 0 →
      (afterHazardMove hypot dt d w.state).coins = w.state.coins ++ [newCoin d]) ∧
    (w.state.spawn.hazardIn - dt ≤ 0 →
      (afterHazardMove hypot dt d w.state).hazards =
        moveHazards dt (w.state.hazards ++ [newHazard d])) ∧
    (moveHazard dt (newHazard d)).x = 980 + (newHazard d).vx * dt ∧
    ((newHazard d).vx = -520 ∨ (newHazard d).vx = -320) := by
  obtain ⟨sc, sh, -, -⟩ := afterSpawn_eq hypot dt d w.state
  obtain ⟨-, -, gc, gh⟩ := afterHazardMove_frame hypot dt d w.state
  refine ⟨update_eq_codeOrder hypot dt d w, ?_, ?_, ?_, rfl, ?_⟩
  · intro h
    rw [update_eq_codeOrder, codeOrder_eq_spec hypot dt d w h]
  · intro h
    rw [gc, sc, if_pos h]
  · intro h
    rw [gh, sh, if_pos h]
  · by_cases ht : d.hazType < 0.5 <;> simp [newHazard, ht]

/-- C16 as stated fails when a hazard is spawned and `dt ≠ 0`: in
`spawnDueWorld` with `dt = 1/40` the rocket spawned by the call is at
`x = 967` after `update` and at `x = 980` after the specification's order, so
the two states differ. -/
theorem C16_counterexample :
    (update hypotZero (1 / 40) zeroDraws spawnDueWorld).state.hazards =
      [{ type := HazardType.rocket, x := 967, y := 70, r := 14, vx := -520 }] ∧
    (specPipeline hypotZero (1 / 40) zeroDraws spawnDueWorld).state.hazards =
      [{ type := HazardType.rocket, x := 980, y := 70, r := 14, vx := -520 }] ∧
    (update hypotZero (1 / 40) zeroDraws spawnDueWorld).state ≠
      (specPipeline hypotZero (1 / 40) zeroDraws spawnDueWorld).state := by
  have h1 : (update hypotZero (1 / 40) zeroDraws spawnDueWorld).state.hazards =
      [{ type := HazardType.rocket, x := 967, y := 70, r := 14, vx := -520 }] := by
    rw [update_eq_codeOrder]
    unfold codeOrderPipeline
    dsimp only
    rw [specResolve_state]
    norm_num [spawnDueWorld, hypotZero, zeroDraws, specTick, newHazard, rand, moveHazard,
      movePlayer, inputDir, leftHeld, rightHeld, upHeld, downHeld, clamp, hazardLoop,
      circleHit, Player.circle, Hazard.circle, List.filter_cons]
  have h2 : (specPipeline hypotZero (1 / 40) zeroDraws spawnDueWorld).state.hazards =
      [{ type := HazardType.rocket, x := 980, y := 70, r := 14, vx := -520 }] := by
    unfold specPipeline
    rw [specResolve_state]
    norm_num [spawnDueWorld, hypotZero, zeroDraws, specTick, specAdvance, newHazard, rand,
      moveHazard, movePlayer, inputDir, leftHeld, rightHeld, upHeld, downHeld, clamp,
      hazardLoop, circleHit, Player.circle, Hazard.circle, List.filter_cons]
  refine ⟨h1, h2, ?_⟩
  intro h
  have := congrArg State.hazards h
  rw [h1, h2] at this
  norm_num at this

/-- The HUD after `update`: published by `syncHud` when the hazard loop runs to
its end, left as it was (with the submit button enabled) when the loop ends
the game. -/
theorem update_ui (hypot : K → K → K) (dt : K) (d : Draws K) (w : World K) :
    (update hypot dt d w).ui =
      if (hazardLoop (afterCoins hypot dt d w.state).player.circle
          (afterCoins hypot dt d w.state).hazards.length
          (afterCoins hypot dt d w.state).hazards (afterCoins hypot dt d w.state).lives).2.2 = true
      then { w.ui with submitDisabled := false }
      else
        { w.ui with
          score := jsString (update hypot dt d w).state.score
          lives := jsString (update hypot dt d w).state.lives
          best := match w.state.best with
            | none => "—"
            | some b => jsString b } := by
  have hb : (afterCoins hypot dt d w.state).best = w.state.best :=
    (afterCoins_frame hypot dt d w.state).2.2.2.2.1
  unfold update
  dsimp only
  split_ifs with h
  · simp [gameOver]
  · simp [syncHud, hb]

/-- A frame that does not end the game publishes score and lives. -/
theorem update_hud_synced (hypot : K → K → K) (dt : K) (d : Draws K) (w : World K)
    (hrun : (update hypot dt d w).state.running = true) :
    (update hypot dt d w).ui.score = jsString (update hypot dt d w).state.score ∧
    (update hypot dt d w).ui.lives = jsString (update hypot dt d w).state.lives := by
  have hf : ¬ (hazardLoop (afterCoins hypot dt d w.state).player.circle
      (afterCoins hypot dt d w.state).hazards.length
      (afterCoins hypot dt d w.state).hazards (afterCoins hypot dt d w.state).lives).2.2 =
      true := by
    intro hf
    rw [update_state] at hrun
    simp [hf] at hrun
  rw [update_ui, if_neg hf]
  exact ⟨rfl, rfl⟩

/-- With one life left and a hazard that hits the moved player, the hazard loop
ends the game. -/
theorem fatal_flag (hypot : K → K → K) (dt : K) (d : Draws K) (w : World K)
    (hl : w.state.lives = 1)
    (hhit : ∃ h ∈ (afterHazardMove hypot dt d w.state).hazards,
      hitsHazard (movePlayer hypot w.state.keys dt w.state.player) h = true) :
    (hazardLoop (afterCoins hypot dt d w.state).player.circle
      (afterCoins hypot dt d w.state).hazards.length
      (afterCoins hypot dt d w.state).hazards (afterCoins hypot dt d w.state).lives).2 =
      (0, true) := by
  obtain ⟨h, hm, hh⟩ := hhit
  obtain ⟨fp, fl, -, -, -, -, fh, -⟩ := afterCoins_frame hypot dt d w.state
  obtain ⟨-, -, -, -, g5, g6⟩ := hazardLoop_full
    (movePlayer hypot w.state.keys dt w.state.player).circle
    (afterHazardMove hypot dt d w.state).hazards w.state.lives (by omega)
  have hk : 0 < (afterHazardMove hypot dt d w.state).hazards.countP
      (fun h => circleHit (movePlayer hypot w.state.keys dt w.state.player).circle
        h.circle) :=
    List.countP_pos_iff.mpr ⟨h, hm, hh⟩
  rw [fp, fl, fh]
  refine Prod.ext ?_ (g6.mpr (by omega))
  rw [g5, hl]
  simp only [max_def]
  split_ifs <;> omega

/-- C18 fails on the fatal frame. In `fatalSyncedWorld` the HUD shows the state
(one life); the frame ends the game with `lives = 0`, `update` returns right
after `gameOver()` without calling `syncHud()`, and the HUD still shows "1",
which is not `String(state.lives)`. -/
theorem C18_hud_stale_on_game_over :
    fatalSyncedWorld.state.running = true ∧
    fatalSyncedWorld.ui.lives = jsString fatalSyncedWorld.state.lives ∧
    fatalSyncedWorld.ui.score = jsString fatalSyncedWorld.state.score ∧
    (update hypotZero (1 / 32) zeroDraws fatalSyncedWorld).state.lives = 0 ∧
    (update hypotZero (1 / 32) zeroDraws fatalSyncedWorld).state.running = false ∧
    (update hypotZero (1 / 32) zeroDraws fatalSyncedWorld).ui.lives = "1" ∧
    (update hypotZero (1 / 32) zeroDraws fatalSyncedWorld).ui.lives ≠
      jsString (update hypotZero (1 / 32) zeroDraws fatalSyncedWorld).state.lives := by
  have hflag := fatal_flag hypotZero (1 / 32) zeroDraws fatalSyncedWorld rfl
    ⟨{ type := HazardType.bomb, x := 100, y := 100, r := 18, vx := -320 }, by
      norm_num [fatalSyncedWorld, syncHud, fatalWorld, hazardWorld, hypotZero, zeroDraws,
        afterHazardMove, afterSpawn, afterMove, spawns, moveHazards, moveHazard,
        List.filter_cons], by
      norm_num [fatalSyncedWorld, syncHud, fatalWorld, hazardWorld, hypotZero, movePlayer,
        inputDir, leftHeld, rightHeld, upHeld, downHeld, clamp, hitsHazard, circleHit,
        Player.circle, Hazard.circle]⟩
  have hl : (update hypotZero (1 / 32) zeroDraws fatalSyncedWorld).state.lives = 0 := by
    rw [update_state]
    exact congrArg Prod.fst hflag
  have hr : (update hypotZero (1 / 32) zeroDraws fatalSyncedWorld).state.running = false := by
    rw [update_state]
    dsimp only
    rw [congrArg Prod.snd hflag]
    simp
  have hu : (update hypotZero (1 / 32) zeroDraws fatalSyncedWorld).ui.lives = "1" := by
    rw [update_ui, if_pos (congrArg Prod.snd hflag)]
    rfl
  refine ⟨rfl, rfl, rfl, hl, hr, hu, ?_⟩
  rw [hu, hl]
  decide

theorem utf16Units_pos (c : Char) : 1 ≤ utf16Units c := by
  unfold utf16Units
  split_ifs <;> omega

/-- A string has length 0 exactly when it is empty. -/
theorem jsLength_eq_zero_iff (s : String) : jsLength s = 0 ↔ s = "" := by
  obtain ⟨l⟩ := s
  cases l with
  | nil => simp [jsLength]
  | cons c cs =>
    have := utf16Units_pos c
    simp only [jsLength, List.map_cons, List.sum_cons]
    constructor
    · intro h; omega
    · intro h
      exact absurd (congrArg String.data h) (by simp)

/-- Trimming splits the string into white space, the trimmed string, and white
space; the trimmed string, when it is not empty, neither starts nor ends with
white space, and it is not longer than the string. -/
theorem jsTrim_spec (s : String) :
    (∃ pre post : List Char, s.data = pre ++ (jsTrim s).data ++ post ∧
      (∀ c ∈ pre, isJsWhiteSpace c = true) ∧ (∀ c ∈ post, isJsWhiteSpace c = true)) ∧
    (∀ hne : (jsTrim s).data ≠ [],
      isJsWhiteSpace ((jsTrim s).data.head hne) = false ∧
      isJsWhiteSpace ((jsTrim s).data.getLast hne) = false) ∧
    jsLength (jsTrim s) ≤ jsLength s := by
  have hd : (jsTrim s).data =
      (s.data.dropWhile isJsWhiteSpace).rdropWhile isJsWhiteSpace := rfl
  have hsplit : (s.data.dropWhile isJsWhiteSpace).rdropWhile isJsWhiteSpace ++
      (s.data.dropWhile isJsWhiteSpace).rtakeWhile isJsWhiteSpace =
      s.data.dropWhile isJsWhiteSpace := by
    have h := List.takeWhile_append_dropWhile isJsWhiteSpace
      (s.data.dropWhile isJsWhiteSpace).reverse
    have h2 := congrArg List.reverse h
    rw [List.reverse_append, List.reverse_reverse] at h2
    exact h2
  refine ⟨⟨s.data.takeWhile isJsWhiteSpace,
    (s.data.dropWhile isJsWhiteSpace).rtakeWhile isJsWhiteSpace, ?_, ?_, ?_⟩, ?_, ?_⟩
  · rw [hd, List.append_assoc, hsplit, List.takeWhile_append_dropWhile]
  · intro c hc
    exact List.mem_takeWhile_imp hc
  · intro c hc
    exact List.mem_rtakeWhile_imp hc
  · intro hne
    constructor
    · have hp : (jsTrim s).data <+: s.data.dropWhile isJsWhiteSpace := by
        rw [hd]
        exact List.rdropWhile_prefix _ _
      have hne2 := hp.ne_nil hne
      rw [hp.head hne]
      have := List.head_dropWhile_not isJsWhiteSpace s.data hne2
      simpa using this
    · have hne' : (s.data.dropWhile isJsWhiteSpace).rdropWhile isJsWhiteSpace ≠ [] := by
        rw [← hd]; exact hne
      have := List.rdropWhile_last_not isJsWhiteSpace _ hne'
      simpa [hd] using this
  · have hsub : (jsTrim s).data.Sublist s.data := by
      rw [hd]
      exact ( List.rdropWhile_prefix _ _).sublist.trans (List.dropWhile_suffix _).sublist
    exact (hsub.map utf16Units).sum_le_sum (fun a _ => Nat.zero_le a)

/-- The call `Number.isInteger(v)` holds exactly for the integers. -/
theorem numberIsInteger_iff (v : JsValue) :
    numberIsInteger v = true ↔ ∃ z : Int, v = JsValue.number (JsNumber.finite z) := by
  cases v with
  | number n =>
    cases n with
    | finite q =>
      simp only [numberIsInteger, decide_eq_true_eq, JsValue.number.injEq, JsNumber.finite.injEq]
      constructor
      · intro h
        exact ⟨q.num, ((Rat.den_eq_one_iff q).mp h).symm⟩
      · rintro ⟨z, rfl⟩
        exact Rat.den_intCast z
    | nan => simp [numberIsInteger]
    | posInf => simp [numberIsInteger]
    | negInf => simp [numberIsInteger]
  | undefined => simp [numberIsInteger]
  | null => simp [numberIsInteger]
  | boolean b => simp [numberIsInteger]
  | string s => simp [numberIsInteger]
  | object => simp [numberIsInteger]

theorem scoreOutOfRange_int (z : Int) :
    scoreOutOfRange (JsValue.number (JsNumber.finite z)) = true ↔ (z < 0 ∨ 1000000 < z) := by
  simp only [scoreOutOfRange, Bool.or_eq_true, decide_eq_true_eq, gt_iff_lt]
  constructor
  · rintro (h | h)
    · exact Or.inl (by exact_mod_cast h)
    · exact Or.inr (by exact_mod_cast h)
  · rintro (h | h)
    · exact Or.inl (by exact_mod_cast h)
    · exact Or.inr (by exact_mod_cast h)

/-- The two ways `createScore` ends: a submission that is invalid in the
specification's sense gets a 400 with an error message and no query; any
other submission gets one `INSERT` with the trimmed name and the score, and a
201 with the row the query returns. -/
theorem createScore_cases (poolQuery : Query → List Row) (body : Option Body) :
    (InvalidSubmission (bodyOrEmpty body) ∧
      (createScore poolQuery body).response.status = 400 ∧
      (∃ message, (createScore poolQuery body).response.body = ResponseBody.error message) ∧
      (createScore poolQuery body).queries = []) ∨
    (¬ InvalidSubmission (bodyOrEmpty body) ∧
      ∃ name : String, (bodyOrEmpty body).playerName = JsValue.string name ∧
        1 ≤ jsLength (jsTrim name) ∧ jsLength name ≤ 20 ∧
        createScore poolQuery body =
          { response :=
              { status := 201
                body := ResponseBody.created (poolQuery
                  { text := insertSql
                    params := [JsValue.string (jsTrim name), (bodyOrEmpty body).score] }).head? }
            queries :=
              [{ text := insertSql
                 params := [JsValue.string (jsTrim name), (bodyOrEmpty body).score] }] }) := by
  unfold createScore
  generalize bodyOrEmpty body = b
  obtain ⟨pn, sc⟩ := b
  cases pn with
  | string name =>
    dsimp only
    by_cases h1 : jsLength (jsTrim name) < 1
    · left
      refine ⟨Or.inr (Or.inl ⟨name, rfl, Or.inl ?_⟩), ?_⟩
      · exact (jsLength_eq_zero_iff _).mp (by omega)
      · simp [h1]
    by_cases h2 : jsLength name > 20
    · left
      refine ⟨Or.inr (Or.inl ⟨name, rfl, Or.inr h2⟩), ?_⟩
      simp [h2]
    by_cases h3 : numberIsInteger sc = true
    · obtain ⟨z, rfl⟩ := (numberIsInteger_iff sc).mp h3
      by_cases h4 : scoreOutOfRange (JsValue.number (JsNumber.finite z)) = true
      · left
        refine ⟨Or.inr (Or.inr (Or.inr ⟨z, rfl, (scoreOutOfRange_int z).mp h4⟩)), ?_⟩
        simp [h1, h2, h4]
      · right
        have hz := mt (scoreOutOfRange_int z).mpr h4
        refine ⟨?_, name, rfl, by omega, by omega, ?_⟩
        · rintro (h | ⟨s, hs, h | h⟩ | h | ⟨y, hy, h⟩)
          · exact h name rfl
          · cases hs
            have := (jsLength_eq_zero_iff _).mpr h
            omega
          · cases hs
            omega
          · exact h z rfl
          · simp only [JsValue.number.injEq, JsNumber.finite.injEq, Int.cast_inj] at hy
            subst hy
            exact hz h
        · simp [h1, h2, h3, h4, Scores.createScore]
    · left
      refine ⟨Or.inr (Or.inr (Or.inl ?_)), ?_⟩
      · intro z hz
        exact h3 ((numberIsInteger_iff sc).mpr ⟨z, hz⟩)
      · simp [h1, h2, h3]
  | undefined => left; exact ⟨Or.inl (by simp), by simp⟩
  | null => left; exact ⟨Or.inl (by simp), by simp⟩
  | boolean b => left; exact ⟨Or.inl (by simp), by simp⟩
  | number n => left; exact ⟨Or.inl (by simp), by simp⟩
  | object => left; exact ⟨Or.inl (by simp), by simp⟩

/-- C14 (score submission validation). For every request body, `createScore`
responds 400 with an error message and issues no query exactly when the name
is not a string, or is empty after trimming, or is longer than 20, or the
score is not an integer, or is below 0, or is above 1,000,000; in every other
case it stores the score, that is, it issues exactly one query, the `INSERT`
of the model with the trimmed name as `$1` and the submitted score as `$2`,
and responds 201 with the row that query returns. A missing body is treated
as a body with no fields and gets 400. -/
theorem C14_score_validation (poolQuery : Query → List Row) (body : Option Body) :
    ((createScore poolQuery body).response.status = 400 ↔
      InvalidSubmission (bodyOrEmpty body)) ∧
    (InvalidSubmission (bodyOrEmpty body) →
      (createScore poolQuery body).response.status = 400 ∧
      (∃ message, (createScore poolQuery body).response.body = ResponseBody.error message) ∧
      (createScore poolQuery body).queries = []) ∧
    (¬ InvalidSubmission (bodyOrEmpty body) →
      (createScore poolQuery body).response.status = 201 ∧
      ∃ name : String, (bodyOrEmpty body).playerName = JsValue.string name ∧
        (createScore poolQuery body).queries =
          [{ text := insertSql
             params := [JsValue.string (jsTrim name), (bodyOrEmpty body).score] }] ∧
        (createScore poolQuery body).response.body =
          ResponseBody.created (poolQuery
            { text := insertSql
              params := [JsValue.string (jsTrim name), (bodyOrEmpty body).score] }).head?) ∧
    createScore poolQuery none =
      createScore poolQuery
        (some { playerName := JsValue.undefined, score := JsValue.undefined }) ∧
    (createScore poolQuery none).response.status = 400 ∧
    (createScore poolQuery none).queries = [] := by
  refine ⟨?_, ?_, ?_, rfl, rfl, rfl⟩
  · rcases createScore_cases poolQuery body with ⟨hi, hs, -, -⟩ | ⟨hv, name, -, -, -, he⟩
    · exact ⟨fun _ => hi, fun _ => hs⟩
    · constructor
      · intro h
        rw [he] at h
        simp at h
      · intro h
        exact absurd h hv
  · intro hi
    rcases createScore_cases poolQuery body with ⟨-, h⟩ | ⟨hv, -⟩
    · exact h
    · exact absurd hi hv
  · intro hv
    rcases createScore_cases poolQuery body with ⟨hi, -⟩ | ⟨-, name, hn, -, -, he⟩
    · exact absurd hi hv
    · rw [he]
      exact ⟨rfl, name, hn, rfl, rfl⟩

/-- C14 on two bodies: a name of spaces only is rejected with 400 and no
query; the name "  ada " with score 120 is accepted with 201 and one `INSERT`
carrying "ada" and 120. -/
theorem C14_score_validation_witness :
    (createScore oneRowDb
      (some ⟨JsValue.string "   ", JsValue.number (JsNumber.finite 120)⟩)).response.status =
        400 ∧
    (createScore oneRowDb
      (some ⟨JsValue.string "   ", JsValue.number (JsNumber.finite 120)⟩)).queries = [] ∧
    (createScore oneRowDb
      (some ⟨JsValue.string "  ada ", JsValue.number (JsNumber.finite 120)⟩)).response.status =
        201 ∧
    (createScore oneRowDb
      (some ⟨JsValue.string "  ada ", JsValue.number (JsNumber.finite 120)⟩)).queries =
        [{ text := insertSql
           params := [JsValue.string "ada", JsValue.number (JsNumber.finite 120)] }] := by
  have h := (C14_score_validation oneRowDb
    (some ⟨JsValue.string "   ", JsValue.number (JsNumber.finite 120)⟩)).2.1
    (Or.inr (Or.inl ⟨"   ", rfl, Or.inl (by decide)⟩))
  exact ⟨h.1, h.2.2, by decide, by decide⟩

/-- C20 (stored name is trimmed). When `createScore` accepts a request
(status 201), it issues exactly one query, the `INSERT` of the model, whose
parameters are the submitted name with leading and trailing white space
removed and the submitted score unchanged; that name is not empty, neither
starts nor ends with white space, and has length between 1 and 20. -/
theorem C20_stored_name_trimmed (poolQuery : Query → List Row) (body : Option Body)
    (h : (createScore poolQuery body).response.status = 201) :
    ∃ name : String,
      (bodyOrEmpty body).playerName = JsValue.string name ∧
      (createScore poolQuery body).queries =
        [{ text := insertSql
           params := [JsValue.string (jsTrim name), (bodyOrEmpty body).score] }] ∧
      (Scores.createScore poolQuery (jsTrim name) (bodyOrEmpty body).score).2 =
        (createScore poolQuery body).queries ∧
      (∃ pre post : List Char, name.data = pre ++ (jsTrim name).data ++ post ∧
        (∀ c ∈ pre, isJsWhiteSpace c = true) ∧ (∀ c ∈ post, isJsWhiteSpace c = true)) ∧
      jsTrim name ≠ "" ∧
      (∀ hne : (jsTrim name).data ≠ [],
        isJsWhiteSpace ((jsTrim name).data.head hne) = false ∧
        isJsWhiteSpace ((jsTrim name).data.getLast hne) = false) ∧
      1 ≤ jsLength (jsTrim name) ∧ jsLength (jsTrim name) ≤ 20 := by
  rcases createScore_cases poolQuery body with ⟨-, hs, -, -⟩ | ⟨-, name, hn, h1, h20, he⟩
  · rw [hs] at h
    exact absurd h (by decide)
  · obtain ⟨t1, t2, t3⟩ := jsTrim_spec name
    refine ⟨name, hn, by rw [he], by rw [he]; rfl, t1, ?_, t2, h1, by omega⟩
    intro h0
    have := (jsLength_eq_zero_iff _).mpr h0
    omega

/-- C20 on the body `{playerName: "  ada ", score: 120}`: it is accepted and
the one query carries the name "ada" and the score 120. -/
theorem C20_stored_name_trimmed_witness :
    (createScore oneRowDb
      (some ⟨JsValue.string "  ada ", JsValue.number (JsNumber.finite 120)⟩)).response.status =
        201 ∧
    (createScore oneRowDb
      (some ⟨JsValue.string "  ada ", JsValue.number (JsNumber.finite 120)⟩)).queries =
        [{ text := insertSql
           params := [JsValue.string "ada", JsValue.number (JsNumber.finite 120)] }] := by
  have h201 : (createScore oneRowDb
      (some ⟨JsValue.string "  ada ", JsValue.number (JsNumber.finite 120)⟩)).response.status
        = 201 := by decide
  obtain ⟨name, hn, hq, -⟩ := C20_stored_name_trimmed oneRowDb _ h201
  have hname : name = "  ada " := by
    simp only [bodyOrEmpty, Option.getD_some, JsValue.string.injEq] at hn
    exact hn.symm
  subst hname
  refine ⟨h201, ?_⟩
  rw [hq]
  decide

/-- The clamp `Math.max(1, Math.min(50, n))` lands in [1, 50] for every number
`n` other than `NaN`, and is `NaN` for `NaN`. -/
theorem clamp_limit (n : JsNumber) :
    (n ≠ JsNumber.nan →
      LimitInRange (mathMax (JsNumber.finite 1) (mathMin (JsNumber.finite 50) n))) ∧
    (n = JsNumber.nan →
      mathMax (JsNumber.finite 1) (mathMin (JsNumber.finite 50) n) = JsNumber.nan) := by
  cases n with
  | finite q =>
    refine ⟨fun _ => ?_, fun h => by cases h⟩
    simp only [mathMin, mathMax, LimitInRange]
    exact ⟨le_max_left _ _, max_le (by norm_num) (min_le_left _ _)⟩
  | nan => exact ⟨fun h => absurd rfl h, fun _ => rfl⟩
  | posInf =>
    refine ⟨fun _ => ?_, fun h => by cases h⟩
    simp only [mathMin, mathMax, LimitInRange]
    norm_num
  | negInf =>
    refine ⟨fun _ => ?_, fun h => by cases h⟩
    simp only [mathMin, mathMax, LimitInRange]
    norm_num

/-- C15 fails for a `limit` that is not numeric. The limit `listTopScores`
passes to the model is 10 when the parameter is absent or empty and lies in
[1, 50] whenever `Number(limit)` is a number other than `NaN`; but when
`Number(limit)` is `NaN`, as for the text "abc", the limit passed is `NaN`,
which is not a number between 1 and 50. -/
theorem C15_limit_nan_on_non_numeric :
    (∀ stringToNumber : String → JsNumber,
      topLimit stringToNumber none = JsNumber.finite 10 ∧
      topLimit stringToNumber (some "") = JsNumber.finite 10) ∧
    (∀ (stringToNumber : String → JsNumber) (s : String),
      s ≠ "" → stringToNumber s ≠ JsNumber.nan →
      LimitInRange (topLimit stringToNumber (some s))) ∧
    (∀ (stringToNumber : String → JsNumber) (s : String),
      s ≠ "" → stringToNumber s = JsNumber.nan →
      topLimit stringToNumber (some s) = JsNumber.nan ∧
      ¬ LimitInRange (topLimit stringToNumber (some s))) ∧
    (∀ (stringToNumber : String → JsNumber) (poolQuery : Query → List Row),
      stringToNumber "abc" = JsNumber.nan →
      (listTopScores stringToNumber poolQuery (some "abc")).queries =
        [{ text := topSql, params := [JsValue.number JsNumber.nan] }] ∧
      ¬ LimitInRange JsNumber.nan) := by
  refine ⟨?_, ?_, ?_, ?_⟩
  · intro stn
    constructor
    · simp only [topLimit, limitNumber, mathMin, mathMax]
      norm_num
    · simp only [topLimit, limitNumber, mathMin, mathMax, if_true]
      norm_num
  · intro stn s hs hn
    simp only [topLimit, limitNumber, if_neg hs]
    exact (clamp_limit (stn s)).1 hn
  · intro stn s hs hn
    have h : topLimit stn (some s) = JsNumber.nan := by
      simp only [topLimit, limitNumber, if_neg hs]
      exact (clamp_limit (stn s)).2 hn
    rw [h]
    exact ⟨rfl, fun hf => hf⟩
  · intro stn poolQuery hn
    have h : topLimit stn (some "abc") = JsNumber.nan := by
      simp only [topLimit, limitNumber, if_neg (show ("abc" : String) ≠ "" by decide)]
      exact (clamp_limit (stn "abc")).2 hn
    refine ⟨?_, fun hf => hf⟩
    simp only [listTopScores, Scores.listTopScores, h]

end Lemmas
end Pineapple
